import Mathlib

/-!
# Door-Lock-System: gesture pipeline and lock state machine

A shallow embedding of `Code Parts/src/main.cpp` (the device firmware) and of the
out-of-place filter of `rolling-average-test.cpp`, followed by theorems about them.

Modelling conventions.

* `float` is modelled by `Flt`: the IEEE special values NaN, +infinity, -infinity and the
  finite values, the finite ones carried as exact rationals.  NaN and the infinities
  follow IEEE 754 (`0/0 = NaN`, `inf - inf = NaN`, every ordered comparison with NaN is
  false).  The functions are first given with exact finite results; for the property
  that rounding decides (the distance between two constant gestures) they are given
  again as `*_rounded`, with every `float` operation followed by a rounding function,
  `round32` being the rounding of binary32.
* `sqrt` is a library function whose code is not part of the repository; on the finite
  non-negative values it is a parameter `sqrtf : ℚ → ℚ` of `compare`.
* `int` is modelled by `Int` (signed overflow is undefined behaviour in C++ and does not
  arise for the constants of the program); `int / int` is truncating division `Int.tdiv`.
* A C array is a total function from indices to values; reads are applications and writes
  are `Function.update`.
* A `for (int i = lo; i < hi; i++)` loop whose body changes neither `i` nor `hi` is
  `forLoop lo hi body`.
* The hardware (buttons, accelerometer) is a parameter `Readings` of each dispatch; LEDs,
  tones, serial output and delays have no effect on the modelled state.
* Memory safety is stated on the `*_logged` versions of the functions, which record the
  index of every array access and are proved to compute the same results.
-/

namespace DoorLock

/-! ## The `float` type -/

/-- Values of the C++ `float` type: NaN, the two infinities, and the finite values. -/
inductive Flt where
  | nan : Flt
  | pinf : Flt
  | ninf : Flt
  | fin (q : ℚ) : Flt
  deriving DecidableEq

namespace Flt

/-- Unary minus. -/
def neg : Flt → Flt
  | nan => nan
  | pinf => ninf
  | ninf => pinf
  | fin q => fin (-q)

/-- Addition `x + y`. -/
def add : Flt → Flt → Flt
  | nan, _ => nan
  | pinf, nan => nan
  | pinf, ninf => nan
  | pinf, _ => pinf
  | ninf, nan => nan
  | ninf, pinf => nan
  | ninf, _ => ninf
  | fin _, nan => nan
  | fin _, pinf => pinf
  | fin _, ninf => ninf
  | fin a, fin b => fin (a + b)

/-- Subtraction `x - y`, which IEEE defines as `x + (-y)`. -/
def sub (x y : Flt) : Flt := add x (neg y)

/-- The infinity with the sign of `q`, NaN when `q = 0` (the value of `inf * q`). -/
def signedInf (q : ℚ) : Flt :=
  if q = 0 then nan else if 0 < q then pinf else ninf

/-- Multiplication `x * y`. -/
def mul : Flt → Flt → Flt
  | nan, _ => nan
  | pinf, nan => nan
  | pinf, pinf => pinf
  | pinf, ninf => ninf
  | pinf, fin b => signedInf b
  | ninf, nan => nan
  | ninf, pinf => ninf
  | ninf, ninf => pinf
  | ninf, fin b => signedInf (-b)
  | fin _, nan => nan
  | fin a, pinf => signedInf a
  | fin a, ninf => signedInf (-a)
  | fin a, fin b => fin (a * b)

/-- Division `x / n` of a `float` by an `int` (the `int` is converted to `float`;
a zero divisor is `+0`). -/
def divInt : Flt → Int → Flt
  | nan, _ => nan
  | pinf, n => if n < 0 then ninf else pinf
  | ninf, n => if n < 0 then pinf else ninf
  | fin q, n => if n = 0 then signedInf q else fin (q / (n : ℚ))

/-- The library `sqrt`; `sqrtf` gives its value on the finite non-negative arguments. -/
def sqrt (sqrtf : ℚ → ℚ) : Flt → Flt
  | nan => nan
  | pinf => pinf
  | ninf => nan
  | fin q => if q < 0 then nan else fin (sqrtf q)

/-- The comparison `x > y`; false as soon as one side is NaN. -/
def gt : Flt → Flt → Bool
  | nan, _ => false
  | pinf, nan => false
  | pinf, pinf => false
  | pinf, _ => true
  | ninf, _ => false
  | fin _, nan => false
  | fin _, pinf => false
  | fin _, ninf => true
  | fin a, fin b => decide (b < a)

/-- The comparison `x <= y`; false as soon as one side is NaN. -/
def le : Flt → Flt → Bool
  | nan, _ => false
  | pinf, pinf => true
  | pinf, _ => false
  | ninf, nan => false
  | ninf, _ => true
  | fin _, nan => false
  | fin _, pinf => true
  | fin _, ninf => false
  | fin a, fin b => decide (a ≤ b)

/-- Finite values: neither NaN nor an infinity. -/
def isFinite : Flt → Bool
  | fin _ => true
  | _ => false

instance : Zero Flt := ⟨fin 0⟩
instance : Add Flt := ⟨add⟩
instance : Sub Flt := ⟨sub⟩
instance : Mul Flt := ⟨mul⟩

end Flt

/-! ## Loops -/

/-- Runs `body i` for `n` consecutive values of `i`, starting at `i`. -/
def forLoopAux {σ : Type} (body : Int → σ → σ) : Nat → Int → σ → σ
  | 0, _, s => s
  | n + 1, i, s => forLoopAux body n (i + 1) (body i s)

/-- The loop `for (int i = lo; i < hi; i++) body`: it runs `hi - lo` times when `lo < hi`
and not at all otherwise. -/
def forLoop {σ : Type} (lo hi : Int) (body : Int → σ → σ) (s : σ) : σ :=
  forLoopAux body (hi - lo).toNat lo s

/-! ## Data model (`main.cpp`, lines 37-72) -/

/-- `MAX_TIME`: maximum recording time in milliseconds. -/
def MAX_TIME : Int := 3500

/-- `POLLING_DELAY`: delay between consecutive pollings of the accelerometer. -/
def POLLING_DELAY : Int := 70

/-- `THRESHOLD`: threshold for determining a comparison match. -/
def THRESHOLD : Flt := Flt.fin 2

/-- `(int)(MAX_TIME / POLLING_DELAY)`: the declared length of the channel arrays. -/
def CAPACITY : Int := Int.tdiv MAX_TIME POLLING_DELAY

/-- `struct axis_data`: one reading of the three axis accelerometer. -/
structure axis_data where
  x : Flt
  y : Flt
  z : Flt

/-- `struct axis_array`: three channel arrays and the logical size. -/
structure axis_array where
  x_arr : Int → Flt
  y_arr : Int → Flt
  z_arr : Int → Flt
  size : Int

/-! ## `compare` (`main.cpp`, lines 194-226) -/

/-- Body of the loop of `compare`: one more Euclidean distance is added to `sum`. -/
def compare_body (sqrtf : ℚ → ℚ) (data1 unlock_pattern : axis_array) (i : Int)
    (sum : Flt) : Flt :=
  let diff_x := data1.x_arr i - unlock_pattern.x_arr i
  let diff_y := data1.y_arr i - unlock_pattern.y_arr i
  let diff_z := data1.z_arr i - unlock_pattern.z_arr i
  sum + Flt.sqrt sqrtf (diff_x * diff_x + diff_y * diff_y + diff_z * diff_z)

/-- The value of `avg_dist` in `compare`, once the sizes are known to be equal. -/
def compare_avg_dist (sqrtf : ℚ → ℚ) (data1 unlock_pattern : axis_array) : Flt :=
  let sum := forLoop 0 data1.size (compare_body sqrtf data1 unlock_pattern) 0
  Flt.divInt sum data1.size

/-- `bool compare(axis_array& data1, const axis_array& unlock_pattern, float threshold)`. -/
def compare (sqrtf : ℚ → ℚ) (data1 unlock_pattern : axis_array) (threshold : Flt) : Bool :=
  if data1.size ≠ unlock_pattern.size then false
  else if Flt.gt (compare_avg_dist sqrtf data1 unlock_pattern) threshold then false
  else true

/-! ## `calculate_moving_average` (`main.cpp`, lines 132-171) -/

/-- The three running sums `sum_x`, `sum_y`, `sum_z` of the filter. -/
structure window_sums where
  sum_x : Flt
  sum_y : Flt
  sum_z : Flt

/-- Body of the first loop: the samples of the first window are added to the sums. -/
def cma_init_body (data : axis_array) (i : Int) (s : window_sums) : window_sums :=
  { sum_x := s.sum_x + data.x_arr i
    sum_y := s.sum_y + data.y_arr i
    sum_z := s.sum_z + data.z_arr i }

/-- The three assignments `data.*_arr[k] = sum_* / window_size`. -/
def cma_store (data : axis_array) (k : Int) (s : window_sums) (window_size : Int) :
    axis_array :=
  { data with
    x_arr := Function.update data.x_arr k (Flt.divInt s.sum_x window_size)
    y_arr := Function.update data.y_arr k (Flt.divInt s.sum_y window_size)
    z_arr := Function.update data.z_arr k (Flt.divInt s.sum_z window_size) }

/-- Body of the main loop: the sums are updated from the array as it is now, and the
average is stored at the middle of the current window. -/
def cma_main_body (window_size : Int) (i : Int) (st : window_sums × axis_array) :
    window_sums × axis_array :=
  let data := st.2
  let s : window_sums :=
    { sum_x := st.1.sum_x - data.x_arr (i - window_size) + data.x_arr i
      sum_y := st.1.sum_y - data.y_arr (i - window_size) + data.y_arr i
      sum_z := st.1.sum_z - data.z_arr (i - window_size) + data.z_arr i }
  (s, cma_store data (i - Int.tdiv window_size 2) s window_size)

/-- Body of the last loop: the remaining elements get the average of the last window. -/
def cma_fill_body (window_size : Int) (s : window_sums) (i : Int) (data : axis_array) :
    axis_array :=
  cma_store data i s window_size

/-- `void calculate_moving_average(axis_array& data, int window_size)`, in place. -/
def calculate_moving_average (data : axis_array) (window_size : Int) : axis_array :=
  if window_size > data.size then data
  else
    let s0 := forLoop 0 window_size (cma_init_body data) ⟨0, 0, 0⟩
    let data1 := cma_store data (Int.tdiv window_size 2) s0 window_size
    let st := forLoop window_size data1.size (cma_main_body window_size) (s0, data1)
    forLoop (st.2.size - Int.tdiv window_size 2) st.2.size
      (cma_fill_body window_size st.1) st.2

/-! ## `truncate` (`main.cpp`, lines 175-192) -/

/-- Body of the loop of `truncate`: slot `i` receives slot `i + window_size`. -/
def truncate_body (window_size : Int) (i : Int) (data : axis_array) : axis_array :=
  { data with
    x_arr := Function.update data.x_arr i (data.x_arr (i + window_size))
    y_arr := Function.update data.y_arr i (data.y_arr (i + window_size))
    z_arr := Function.update data.z_arr i (data.z_arr (i + window_size)) }

/-- `void truncate(axis_array& data, int window_size)`, in place. -/
def truncate (data : axis_array) (window_size : Int) : axis_array :=
  if window_size * 2 > data.size then data
  else
    let new_size := data.size - window_size * 2
    let data1 := forLoop 0 new_size (truncate_body window_size) data
    { data1 with size := new_size }

/-! ## The out-of-place filter of `rolling-average-test.cpp` (lines 62-92) -/

namespace RollingAverageTest

/-- The inner loop `for (int j = i; j < i + window_size; j++) sum += arr[j]`. -/
def window_sum (arr : Int → Flt) (i window_size : Int) : Flt :=
  forLoop i (i + window_size) (fun j sum => sum + arr j) 0

/-- One outer loop of the filter, for one channel: `out[i] = sum / window_size`. -/
def channel_average (inp : Int → Flt) (size window_size : Int) (out : Int → Flt) :
    Int → Flt :=
  forLoop 0 (size - window_size + 1)
    (fun i o => Function.update o i (Flt.divInt (window_sum inp i window_size) window_size))
    out

/-- `void calculate_moving_average(const axis_array& input_data, axis_array& output_data,
int window_size)`. -/
def calculate_moving_average (input_data output_data : axis_array) (window_size : Int) :
    axis_array :=
  { x_arr := channel_average input_data.x_arr input_data.size window_size output_data.x_arr
    y_arr := channel_average input_data.y_arr input_data.size window_size output_data.y_arr
    z_arr := channel_average input_data.z_arr input_data.size window_size output_data.z_arr
    size := input_data.size - window_size + 1 }

end RollingAverageTest

/-! ## The state machine (`main.cpp`, lines 65-129 and 228-408) -/

/-- The global variables of the firmware. -/
structure Device where
  acc_data : axis_data
  raw_unlock_code : axis_array
  raw_attempted_pattern : axis_array
  state : Nat
  next_state : Nat

/-- What the hardware returns during one call of `state_control`: the successive values
read from the left button, from the right button, and from the accelerometer. Reading
`0` of a button is the one taken on entry to `state_control`; reading `k + 1` is the one
taken in a recording loop after sample `k`. -/
structure Readings where
  l_btn : Nat → Bool
  r_btn : Nat → Bool
  motion : Nat → axis_data

/-- `void record_data(size_t index, axis_array &data)`, given the reading that
`get_acc_data` has just stored in `acc_data`. -/
def record_data (index : Int) (data : axis_array) (acc : axis_data) : axis_array :=
  { data with
    x_arr := Function.update data.x_arr index acc.x
    y_arr := Function.update data.y_arr index acc.y
    z_arr := Function.update data.z_arr index acc.z }

/-- `void clear_buffer(axis_array &data, int &i)`. -/
def clear_buffer (data : axis_array) (i : Int) : axis_array :=
  { data with
    x_arr := Function.update data.x_arr i 0
    y_arr := Function.update data.y_arr i 0
    z_arr := Function.update data.z_arr i 0 }

/-- `void clear_all_buffers(int &i)`. -/
def clear_all_buffers (i : Int) (dev : Device) : Device :=
  { dev with
    raw_unlock_code := clear_buffer dev.raw_unlock_code i
    raw_attempted_pattern := clear_buffer dev.raw_attempted_pattern i }

/-- The recording loop
`while ((i < N) & (!press)) { record_code(data, i); press = button; i++; }`.
The first argument counts the iterations still allowed by `i < N`; the result is the
final `i` with the final `acc_data` and buffer. -/
def record_loop (motion : Nat → axis_data) (btn : Nat → Bool) :
    Nat → Nat → Bool → axis_data × axis_array → Nat × axis_data × axis_array
  | 0, i, _, st => (i, st)
  | left + 1, i, press, st =>
    if press then (i, st)
    else record_loop motion btn left (i + 1) (btn (i + 1))
      (motion i, record_data (i : Int) st.2 (motion i))

/-- `void state_control()`: one dispatch on `state`. -/
def state_control (sqrtf : ℚ → ℚ) (rd : Readings) (dev : Device) : Device :=
  let window_size : Int := 10
  let l_press := rd.l_btn 0
  let r_press := rd.r_btn 0
  match dev.state with
  | 0 => if l_press then { dev with next_state := 1 } else dev
  | 1 =>
    let dev1 := forLoop 0 CAPACITY clear_all_buffers dev
    let rec1 := record_loop rd.motion rd.l_btn CAPACITY.toNat 0 l_press
      (dev1.acc_data, dev1.raw_unlock_code)
    let code := { rec1.2.2 with size := (rec1.1 : Int) }
    let code := calculate_moving_average code window_size
    let code := truncate code window_size
    { dev1 with acc_data := rec1.2.1, raw_unlock_code := code, next_state := 2 }
  | 2 =>
    if l_press then { dev with next_state := 1 }
    else if r_press then { dev with next_state := 3 }
    else { dev with next_state := 2 }
  | 3 =>
    let rec3 := record_loop rd.motion rd.r_btn CAPACITY.toNat 0 r_press
      (dev.acc_data, dev.raw_attempted_pattern)
    let pattern := { rec3.2.2 with size := (rec3.1 : Int) }
    let pattern := calculate_moving_average pattern window_size
    let pattern := truncate pattern window_size
    let is_match := compare sqrtf pattern dev.raw_unlock_code THRESHOLD
    { dev with
      acc_data := rec3.2.1
      raw_attempted_pattern := pattern
      next_state := if is_match then 5 else 4 }
  | 4 => { dev with next_state := 2 }
  | 5 => { dev with next_state := 2 }
  | _ => dev

/-- The static initial values of the two buffers: all zero, `size` the capacity. -/
def initial_buffer : axis_array :=
  { x_arr := fun _ => 0, y_arr := fun _ => 0, z_arr := fun _ => 0, size := CAPACITY }

/-- `void setup()`, from the static initial values of the globals. -/
def setup : Device :=
  { acc_data := ⟨0, 0, 0⟩
    raw_unlock_code := initial_buffer
    raw_attempted_pattern := initial_buffer
    state := 0
    next_state := 0 }

/-- `void loop()`: `state = next_state; state_control();`. -/
def loop (sqrtf : ℚ → ℚ) (rd : Readings) (dev : Device) : Device :=
  state_control sqrtf rd { dev with state := dev.next_state }

/-! ## Specification of the similarity score -/

/-- A buffer of `n` samples whose three channels all hold `0, 1, 2, ...`. -/
def ramp_buffer (n : Int) : axis_array :=
  { x_arr := fun i => Flt.fin i
    y_arr := fun i => Flt.fin i
    z_arr := fun i => Flt.fin i
    size := n }

/-- A buffer of `n` samples, all zero. -/
def zero_buffer (n : Int) : axis_array :=
  { x_arr := fun _ => 0, y_arr := fun _ => 0, z_arr := fun _ => 0, size := n }

/-- A buffer of sixteen samples whose `x` channel is 10 at index 5 and 0 elsewhere; `y`
and `z` are zero. -/
def bump_buffer : axis_array :=
  { x_arr := fun i => if i = 5 then Flt.fin 10 else 0
    y_arr := fun _ => 0
    z_arr := fun _ => 0
    size := 16 }

/-- Readings with the left button held down and the right button up. -/
def left_held : Readings :=
  { l_btn := fun _ => true, r_btn := fun _ => false, motion := fun _ => ⟨0, 0, 0⟩ }

/-- Readings with the right button held down and the left button up. -/
def right_held : Readings :=
  { l_btn := fun _ => false, r_btn := fun _ => true, motion := fun _ => ⟨0, 0, 0⟩ }

/-- Readings with both buttons held down. -/
def both_held : Readings :=
  { l_btn := fun _ => true, r_btn := fun _ => true, motion := fun _ => ⟨0, 0, 0⟩ }

/-- Readings with no button pressed and the device at rest. -/
def no_button : Readings :=
  { l_btn := fun _ => false, r_btn := fun _ => false, motion := fun _ => ⟨0, 0, 0⟩ }

/-- The device after `setup` and two dispatches with the left button held: the first
leaves state 0, the second is a recording session (state 1). -/
def recorded_device : Device :=
  loop Rat.sqrt left_held (loop Rat.sqrt left_held setup)

/-! ## Specification of the transition table -/

/-- Specification: the transition table of the lock state machine. The next state for
`state` in 0..5, from the button readings taken on entry and, in state 3, from the
outcome `is_match` of the comparison; any other `state` value is left as it is. -/
def transition_table (state : Nat) (l_press r_press is_match : Bool) : Nat :=
  match state with
  | 0 => if l_press then 1 else 0
  | 1 => 2
  | 2 => if l_press then 1 else if r_press then 3 else 2
  | 3 => if is_match then 5 else 4
  | 4 => 2
  | 5 => 2
  | s => s

/-! ## Stages of the functions, named for the proofs -/

/-- The sums after the first loop of `calculate_moving_average`. -/
def cma_first_sums (data : axis_array) (window_size : Int) : window_sums :=
  forLoop 0 window_size (cma_init_body data) ⟨0, 0, 0⟩

/-- The sums and the array after the main loop of `calculate_moving_average`. -/
def cma_main_pass (data : axis_array) (window_size : Int) : window_sums × axis_array :=
  forLoop window_size data.size (cma_main_body window_size)
    (cma_first_sums data window_size,
      cma_store data (Int.tdiv window_size 2) (cma_first_sums data window_size) window_size)

/-- The buffer a recording loop hands to the filter: the slots written by the loop and
`size` set to the final `i`. -/
def recorded_buffer (motion : Nat → axis_data) (btn : Nat → Bool) (acc : axis_data)
    (data : axis_array) : axis_array :=
  { (record_loop motion btn CAPACITY.toNat 0 (btn 0) (acc, data)).2.2 with
    size := ((record_loop motion btn CAPACITY.toNat 0 (btn 0) (acc, data)).1 : Int) }

/-- Specification: a recording loop that polls `btn` captures exactly `n` samples when
the readings `0 .. n - 1` are "not pressed" and either the buffer is full (`n` is the
capacity) or reading `n` is "pressed". -/
def captures (btn : Nat → Bool) (n : Nat) : Prop :=
  (n : Int) ≤ CAPACITY ∧ (∀ k, k < n → btn k = false) ∧ ((n : Int) < CAPACITY → btn n = true)

/-- Two buffers have the same size and the same samples at the indices below it. -/
def same_samples (a b : axis_array) : Prop :=
  a.size = b.size ∧
  ∀ k, 0 ≤ k → k < a.size →
    a.x_arr k = b.x_arr k ∧ a.y_arr k = b.y_arr k ∧ a.z_arr k = b.z_arr k

/-- The configurations reachable from `setup` by dispatches of `loop`, whatever the
hardware returns. -/
inductive Reachable (sqrtf : ℚ → ℚ) : Device → Prop where
  | setup : Reachable sqrtf setup
  | step (rd : Readings) (dev : Device) :
      Reachable sqrtf dev → Reachable sqrtf (loop sqrtf rd dev)

/-- Readings with no button pressed and the device held so that every sample is
`(1, 0, 0)`. -/
def unit_x_readings : Readings :=
  { l_btn := fun _ => false, r_btn := fun _ => false, motion := fun _ => ⟨Flt.fin 1, 0, 0⟩ }

/-- Readings of a gesture of twenty samples `(0,0,0), (1,0,0), (2,0,0), ...`: both
buttons read "pressed" from their reading 20 on. -/
def twenty_ramp_readings : Readings :=
  { l_btn := fun k => decide (20 ≤ k)
    r_btn := fun k => decide (20 ≤ k)
    motion := fun k => ⟨Flt.fin k, 0, 0⟩ }

/-- Readings of a gesture of twenty samples, all `(0, 0, 9)`: both buttons read
"pressed" from their reading 20 on. -/
def twenty_flat_readings : Readings :=
  { l_btn := fun k => decide (20 ≤ k)
    r_btn := fun k => decide (20 ≤ k)
    motion := fun _ => ⟨0, 0, Flt.fin 9⟩ }

/-- A buffer holds the sample `(cx, cy, cz)` at every index below its size. -/
def constant_samples (cx cy cz : ℚ) (d : axis_array) : Prop :=
  ∀ k, 0 ≤ k → k < d.size →
    d.x_arr k = Flt.fin cx ∧ d.y_arr k = Flt.fin cy ∧ d.z_arr k = Flt.fin cz

/-- A buffer of `n` samples, all equal to `(cx, cy, cz)`. -/
def constant_buffer (cx cy cz : ℚ) (n : Int) : axis_array :=
  { x_arr := fun _ => Flt.fin cx
    y_arr := fun _ => Flt.fin cy
    z_arr := fun _ => Flt.fin cz
    size := n }

/-! ## The functions with a log of the array indices they access

The three channel arrays are always read and written at the same indices, so one log
entry stands for the accesses to `x_arr`, `y_arr` and `z_arr` at that index. -/

/-- A loop body that also appends to a log the indices `idx i` which `body i` reads or
writes. -/
def logged {σ : Type} (body : Int → σ → σ) (idx : Int → List Int) (i : Int)
    (sl : σ × List Int) : σ × List Int :=
  (body i sl.1, sl.2 ++ idx i)

/-- `calculate_moving_average` with its log: the first loop reads `[i]`, the first window
is stored at `[window_size / 2]`, the main loop reads `[i - window_size]` and `[i]` and
writes `[i - window_size / 2]`, the last loop writes `[i]`. -/
def calculate_moving_average_logged (data : axis_array) (window_size : Int) :
    axis_array × List Int :=
  if window_size > data.size then (data, [])
  else
    let s0 := forLoop 0 window_size (logged (cma_init_body data) (fun i => [i]))
      (⟨0, 0, 0⟩, [])
    let data1 := cma_store data (Int.tdiv window_size 2) s0.1 window_size
    let st := forLoop window_size data1.size
      (logged (cma_main_body window_size)
        (fun i => [i - window_size, i, i - Int.tdiv window_size 2]))
      ((s0.1, data1), s0.2 ++ [Int.tdiv window_size 2])
    forLoop (st.1.2.size - Int.tdiv window_size 2) st.1.2.size
      (logged (cma_fill_body window_size st.1.1) (fun i => [i])) (st.1.2, st.2)

/-- `truncate` with its log: the loop reads `[i + window_size]` and writes `[i]`. -/
def truncate_logged (data : axis_array) (window_size : Int) : axis_array × List Int :=
  if window_size * 2 > data.size then (data, [])
  else
    let new_size := data.size - window_size * 2
    let r := forLoop 0 new_size
      (logged (truncate_body window_size) (fun i => [i + window_size, i])) (data, [])
    ({ r.1 with size := new_size }, r.2)

/-- `compare` with its log: the loop reads `[i]` of both buffers. -/
def compare_logged (sqrtf : ℚ → ℚ) (data1 unlock_pattern : axis_array) (threshold : Flt) :
    Bool × List Int :=
  if data1.size ≠ unlock_pattern.size then (false, [])
  else
    let r := forLoop 0 data1.size
      (logged (compare_body sqrtf data1 unlock_pattern) (fun i => [i])) (0, [])
    (if Flt.gt (Flt.divInt r.1 data1.size) threshold then false else true, r.2)

/-! ## Binary32 rounding

The definitions above carry every finite result exactly. Where rounding decides a
property, the functions are restated with every `float` operation followed by a rounding
function `rnd`, which maps the exact result of the operation to the `float` that is
stored; `round32` is the rounding of IEEE 754 binary32 (round to nearest, ties to even),
the `float` of the target. The `int` operands of the divisions (window 10, sizes up to
50) convert to `float` exactly. -/

namespace Flt

/-- The stored result of an operation whose exact result is `x`: a finite value is
rounded by `rnd`; NaN and the infinities are themselves. -/
def round (rnd : ℚ → Flt) : Flt → Flt
  | fin q => rnd q
  | nan => nan
  | pinf => pinf
  | ninf => ninf

end Flt

/-- The integer nearest to `m`, the even one of the two when `m` is half-way. -/
def round_half_even (m : ℚ) : Int :=
  if m - (⌊m⌋ : ℚ) < 1 / 2 then ⌊m⌋
  else if 1 / 2 < m - (⌊m⌋ : ℚ) then ⌊m⌋ + 1
  else if ⌊m⌋ % 2 = 0 then ⌊m⌋
  else ⌊m⌋ + 1

/-- IEEE 754 binary32 rounding of a finite exact result, to nearest, ties to even: 24
significant bits, the unit in the last place not below `2^-149` (subnormals), and
overflow to an infinity when the rounded magnitude reaches `2^128`. -/
def round32 (q : ℚ) : Flt :=
  if q = 0 then Flt.fin 0
  else
    let k : Int := max (Int.log 2 |q| - 23) (-149)
    let v : ℚ := (round_half_even (q / (2 : ℚ) ^ k) : ℚ) * (2 : ℚ) ^ k
    if (2 : ℚ) ^ (128 : Int) ≤ |v| then (if 0 < q then Flt.pinf else Flt.ninf)
    else Flt.fin v

/-- The rounding function is exact at `q`: an operation with exact result `q` does not
round. -/
def exact_at (rnd : ℚ → Flt) (q : ℚ) : Prop := rnd q = Flt.fin q

/-- Body of the first loop of `calculate_moving_average`, each addition rounded. -/
def cma_init_body_rounded (rnd : ℚ → Flt) (data : axis_array) (i : Int)
    (s : window_sums) : window_sums :=
  { sum_x := Flt.round rnd (s.sum_x + data.x_arr i)
    sum_y := Flt.round rnd (s.sum_y + data.y_arr i)
    sum_z := Flt.round rnd (s.sum_z + data.z_arr i) }

/-- The three assignments `data.*_arr[k] = sum_* / window_size`, each division rounded. -/
def cma_store_rounded (rnd : ℚ → Flt) (data : axis_array) (k : Int) (s : window_sums)
    (window_size : Int) : axis_array :=
  { data with
    x_arr := Function.update data.x_arr k (Flt.round rnd (Flt.divInt s.sum_x window_size))
    y_arr := Function.update data.y_arr k (Flt.round rnd (Flt.divInt s.sum_y window_size))
    z_arr := Function.update data.z_arr k (Flt.round rnd (Flt.divInt s.sum_z window_size)) }

/-- Body of the main loop of `calculate_moving_average`: `sum - a + b` is a rounded
subtraction followed by a rounded addition. -/
def cma_main_body_rounded (rnd : ℚ → Flt) (window_size : Int) (i : Int)
    (st : window_sums × axis_array) : window_sums × axis_array :=
  let data := st.2
  let s : window_sums :=
    { sum_x := Flt.round rnd
        (Flt.round rnd (st.1.sum_x - data.x_arr (i - window_size)) + data.x_arr i)
      sum_y := Flt.round rnd
        (Flt.round rnd (st.1.sum_y - data.y_arr (i - window_size)) + data.y_arr i)
      sum_z := Flt.round rnd
        (Flt.round rnd (st.1.sum_z - data.z_arr (i - window_size)) + data.z_arr i) }
  (s, cma_store_rounded rnd data (i - Int.tdiv window_size 2) s window_size)

/-- The sums after the first loop of the rounded filter. -/
def cma_first_sums_rounded (rnd : ℚ → Flt) (data : axis_array) (window_size : Int) :
    window_sums :=
  forLoop 0 window_size (cma_init_body_rounded rnd data) ⟨0, 0, 0⟩

/-- The sums and the array after the main loop of the rounded filter. -/
def cma_main_pass_rounded (rnd : ℚ → Flt) (data : axis_array) (window_size : Int) :
    window_sums × axis_array :=
  forLoop window_size data.size (cma_main_body_rounded rnd window_size)
    (cma_first_sums_rounded rnd data window_size,
      cma_store_rounded rnd data (Int.tdiv window_size 2)
        (cma_first_sums_rounded rnd data window_size) window_size)

/-- `void calculate_moving_average(axis_array& data, int window_size)` with every
`float` operation rounded by `rnd`. -/
def calculate_moving_average_rounded (rnd : ℚ → Flt) (data : axis_array)
    (window_size : Int) : axis_array :=
  if window_size > data.size then data
  else
    let s0 := forLoop 0 window_size (cma_init_body_rounded rnd data) ⟨0, 0, 0⟩
    let data1 := cma_store_rounded rnd data (Int.tdiv window_size 2) s0 window_size
    let st := forLoop window_size data1.size (cma_main_body_rounded rnd window_size)
      (s0, data1)
    forLoop (st.2.size - Int.tdiv window_size 2) st.2.size
      (fun i d => cma_store_rounded rnd d i st.1 window_size) st.2

/-- Body of the loop of `compare`, every `float` operation rounded; `sqrtf` gives the
`float` that the library `sqrt` returns. -/
def compare_body_rounded (rnd : ℚ → Flt) (sqrtf : ℚ → ℚ) (data1 unlock_pattern : axis_array)
    (i : Int) (sum : Flt) : Flt :=
  let diff_x := Flt.round rnd (data1.x_arr i - unlock_pattern.x_arr i)
  let diff_y := Flt.round rnd (data1.y_arr i - unlock_pattern.y_arr i)
  let diff_z := Flt.round rnd (data1.z_arr i - unlock_pattern.z_arr i)
  Flt.round rnd (sum + Flt.sqrt sqrtf
    (Flt.round rnd
      (Flt.round rnd (Flt.round rnd (diff_x * diff_x) + Flt.round rnd (diff_y * diff_y))
        + Flt.round rnd (diff_z * diff_z))))

/-- The value of `avg_dist` in `compare`, every `float` operation rounded. -/
def compare_avg_dist_rounded (rnd : ℚ → Flt) (sqrtf : ℚ → ℚ)
    (data1 unlock_pattern : axis_array) : Flt :=
  let sum := forLoop 0 data1.size (compare_body_rounded rnd sqrtf data1 unlock_pattern) 0
  Flt.round rnd (Flt.divInt sum data1.size)

/-- `bool compare(axis_array& data1, const axis_array& unlock_pattern, float threshold)`
with every `float` operation rounded by `rnd`. -/
def compare_rounded (rnd : ℚ → Flt) (sqrtf : ℚ → ℚ) (data1 unlock_pattern : axis_array)
    (threshold : Flt) : Bool :=
  if data1.size ≠ unlock_pattern.size then false
  else if Flt.gt (compare_avg_dist_rounded rnd sqrtf data1 unlock_pattern) threshold
  then false
  else true

/-- No running sum of `c` rounds: every `k * c` with `0 <= k <= n` is kept by `rnd`. -/
def sums_exact (rnd : ℚ → Flt) (n : Int) (c : ℚ) : Prop :=
  ∀ k : Int, 0 ≤ k → k ≤ n → exact_at rnd ((k : ℚ) * c)

/-! ## Loops: unfolding and invariants -/

theorem forLoopAux_succ_last {σ : Type} (body : Int → σ → σ) (n : Nat) (i : Int) (s : σ) :
    forLoopAux body (n + 1) i s = body (i + n) (forLoopAux body n i s) := by
  induction n generalizing i s with
  | zero => simp [forLoopAux]
  | succ k ih =>
    rw [forLoopAux, ih (i + 1) (body i s)]
    have e : i + 1 + (k : Int) = i + ((k + 1 : Nat) : Int) := by push_cast; ring
    rw [e]
    rfl

theorem forLoop_of_le {σ : Type} {lo hi : Int} (body : Int → σ → σ) (s : σ)
    (h : hi ≤ lo) : forLoop lo hi body s = s := by
  have e : (hi - lo).toNat = 0 := by omega
  simp [forLoop, e, forLoopAux]

theorem forLoop_step {σ : Type} {lo hi : Int} (body : Int → σ → σ) (s : σ)
    (h : lo < hi) : forLoop lo hi body s = forLoop (lo + 1) hi body (body lo s) := by
  have e : (hi - lo).toNat = (hi - (lo + 1)).toNat + 1 := by omega
  simp [forLoop, e, forLoopAux]

theorem forLoop_last {σ : Type} {lo hi : Int} (body : Int → σ → σ) (s : σ)
    (h : lo ≤ hi) : forLoop lo (hi + 1) body s = body hi (forLoop lo hi body s) := by
  have e : (hi + 1 - lo).toNat = (hi - lo).toNat + 1 := by omega
  have e2 : lo + ((hi - lo).toNat : Int) = hi := by omega
  simp only [forLoop, e, forLoopAux_succ_last, e2]

/-- Invariant rule for `forLoopAux`: `P k` speaks of the state after `k` iterations. -/
theorem forLoopAux_invariant {σ : Type} (body : Int → σ → σ) (P : Nat → σ → Prop)
    (n : Nat) (i : Int) (s : σ) (h0 : P 0 s)
    (hstep : ∀ k t, k < n → P k t → P (k + 1) (body (i + k) t)) :
    P n (forLoopAux body n i s) := by
  induction n with
  | zero => simpa [forLoopAux] using h0
  | succ m ih =>
    rw [forLoopAux_succ_last]
    exact hstep m _ (Nat.lt_succ_self m)
      (ih (fun k t hk hP => hstep k t (Nat.lt_succ_of_lt hk) hP))

/-- Invariant rule for `forLoop`: `P j` speaks of the state on entry to iteration `j`. -/
theorem forLoop_invariant {σ : Type} (body : Int → σ → σ) (P : Int → σ → Prop)
    (lo hi : Int) (s : σ) (hle : lo ≤ hi) (h0 : P lo s)
    (hstep : ∀ j t, lo ≤ j → j < hi → P j t → P (j + 1) (body j t)) :
    P hi (forLoop lo hi body s) := by
  have key := forLoopAux_invariant body (fun k t => P (lo + k) t) (hi - lo).toNat lo s
    (by simpa using h0)
    (fun k t hk hP => by
      have := hstep (lo + k) t (by omega) (by omega) hP
      have e : lo + (k : Int) + 1 = lo + ((k + 1 : Nat) : Int) := by push_cast; ring
      rw [e] at this
      exact this)
  have e2 : lo + ((hi - lo).toNat : Int) = hi := by omega
  simp only [e2] at key
  exact key

/-- A property kept by every iteration holds after the loop, whatever the bounds. -/
theorem forLoop_preserves {σ : Type} (body : Int → σ → σ) (P : σ → Prop)
    (lo hi : Int) (s : σ) (h0 : P s) (hstep : ∀ j t, P t → P (body j t)) :
    P (forLoop lo hi body s) :=
  forLoopAux_invariant body (fun _ t => P t) _ lo s h0 (fun _ t _ hP => hstep _ t hP)

/-- Two loops over the same range agree when their bodies agree on that range. -/
theorem forLoop_congr {σ : Type} (f g : Int → σ → σ) (lo hi : Int) (s : σ)
    (h : ∀ j t, lo ≤ j → j < hi → f j t = g j t) :
    forLoop lo hi f s = forLoop lo hi g s := by
  rcases le_or_lt hi lo with hle | hlt
  · rw [forLoop_of_le f s hle, forLoop_of_le g s hle]
  · have key := forLoop_invariant f (fun j t => t = forLoop lo j g s) lo hi s hlt.le
      (by simp [forLoop_of_le])
      (fun j t h1 h2 hP => by
        have hP2 : t = forLoop lo j g s := hP
        show f j t = forLoop lo (j + 1) g s
        rw [forLoop_last g s h1, ← hP2, h j t h1 h2])
    exact key

/-! ## Arithmetic of `Flt` -/

namespace Flt

theorem add_def (x y : Flt) : x + y = add x y := rfl
theorem sub_def (x y : Flt) : x - y = add x (neg y) := rfl
theorem mul_def (x y : Flt) : x * y = mul x y := rfl
theorem zero_def : (0 : Flt) = fin 0 := rfl

theorem zero_add_flt (x : Flt) : 0 + x = x := by
  cases x <;> simp [add_def, zero_def, add]

theorem neg_sub (x y : Flt) : neg (x - y) = y - x := by
  cases x <;> cases y <;> simp [sub_def, add, neg]

theorem mul_neg_neg (x : Flt) : neg x * neg x = x * x := by
  cases x <;> simp [mul_def, mul, neg]

/-- The square of a difference does not depend on the order of the operands. -/
theorem sub_sq_comm (x y : Flt) : (x - y) * (x - y) = (y - x) * (y - x) := by
  rw [← neg_sub x y, mul_neg_neg]

theorem sub_self_finite {x : Flt} (h : x.isFinite = true) : x - x = 0 := by
  cases x <;> simp_all [sub_def, zero_def, add, neg, isFinite]

theorem sub_self_cases (x : Flt) : x - x = 0 ∨ x - x = nan := by
  cases x <;> simp [sub_def, zero_def, add, neg]

theorem zero_mul_zero : (0 : Flt) * 0 = 0 := by simp [mul_def, zero_def, mul]

theorem nan_mul (x : Flt) : nan * x = nan := by simp [mul_def, mul]

theorem nan_add (x : Flt) : nan + x = nan := by simp [add_def, add]

theorem add_nan (x : Flt) : x + nan = nan := by cases x <;> simp [add_def, add]

theorem sqrt_nan (s : ℚ → ℚ) : sqrt s nan = nan := rfl

theorem sqrt_zero (s : ℚ → ℚ) (h : s 0 = 0) : sqrt s 0 = 0 := by
  simp [sqrt, zero_def, h]

theorem gt_nan_left (t : Flt) : gt nan t = false := rfl

theorem divInt_zero_cases (n : Int) : divInt 0 n = 0 ∨ divInt 0 n = nan := by
  by_cases h : n = 0 <;> simp [divInt, zero_def, h, signedInf]

theorem divInt_zero_of_ne {n : Int} (h : n ≠ 0) : divInt 0 n = 0 := by
  simp [divInt, zero_def, h]

theorem gt_zero_of_le {t : Flt} (h : le 0 t = true) : gt 0 t = false := by
  cases t <;> simp_all [gt, le, zero_def]

end Flt

theorem rat_sqrt_zero : Rat.sqrt 0 = 0 := by
  have h := Rat.sqrt_eq 0
  rw [mul_zero, abs_zero] at h
  exact h

theorem rat_sqrt_four : Rat.sqrt 4 = 2 := by
  have h := Rat.sqrt_eq 2
  rw [show (2 : ℚ) * 2 = 4 by norm_num, abs_of_nonneg (by norm_num)] at h
  exact h

theorem le_zero_THRESHOLD : Flt.le 0 THRESHOLD = true := by
  simp [Flt.le, THRESHOLD, Flt.zero_def]

/-! ## `compare` -/

/-- C2: when the two sizes differ, `compare` returns false (non-match), whatever the
contents of the two buffers and whatever the threshold. -/
theorem compare_size_mismatch (sqrtf : ℚ → ℚ) (a b : axis_array) (t : Flt)
    (h : a.size ≠ b.size) : compare sqrtf a b t = false := by
  simp [compare, h]

theorem compare_size_mismatch_witness :
    (ramp_buffer 3).size ≠ (ramp_buffer 4).size ∧
    compare Rat.sqrt (ramp_buffer 3) (ramp_buffer 4) THRESHOLD = false :=
  ⟨by decide, compare_size_mismatch Rat.sqrt (ramp_buffer 3) (ramp_buffer 4) THRESHOLD
    (by decide)⟩

theorem compare_body_self_cases (sqrtf : ℚ → ℚ) (h0 : sqrtf 0 = 0) (a : axis_array)
    (i : Int) (sum : Flt) (hs : sum = 0 ∨ sum = Flt.nan) :
    compare_body sqrtf a a i sum = 0 ∨ compare_body sqrtf a a i sum = Flt.nan := by
  simp only [compare_body]
  rcases Flt.sub_self_cases (a.x_arr i) with hx | hx <;>
  rcases Flt.sub_self_cases (a.y_arr i) with hy | hy <;>
  rcases Flt.sub_self_cases (a.z_arr i) with hz | hz <;>
  rcases hs with hs | hs <;>
  simp [hx, hy, hz, hs, Flt.zero_mul_zero, Flt.nan_mul, Flt.nan_add, Flt.add_nan,
    Flt.zero_add_flt, Flt.sqrt_zero sqrtf h0, Flt.sqrt_nan]

theorem compare_body_self_finite (sqrtf : ℚ → ℚ) (h0 : sqrtf 0 = 0) (a : axis_array)
    (i : Int) (hx : (a.x_arr i).isFinite = true) (hy : (a.y_arr i).isFinite = true)
    (hz : (a.z_arr i).isFinite = true) : compare_body sqrtf a a i 0 = 0 := by
  simp [compare_body, Flt.sub_self_finite hx, Flt.sub_self_finite hy,
    Flt.sub_self_finite hz, Flt.zero_mul_zero, Flt.zero_add_flt, Flt.sqrt_zero sqrtf h0]

/-- The self-comparison mean distance is 0 or NaN, for every buffer. -/
theorem compare_avg_dist_self_cases (sqrtf : ℚ → ℚ) (h0 : sqrtf 0 = 0) (a : axis_array) :
    compare_avg_dist sqrtf a a = 0 ∨ compare_avg_dist sqrtf a a = Flt.nan := by
  have hsum := forLoop_preserves (compare_body sqrtf a a)
    (fun s => s = 0 ∨ s = Flt.nan) 0 a.size 0 (Or.inl rfl)
    (fun j s hs => compare_body_self_cases sqrtf h0 a j s hs)
  simp only [compare_avg_dist]
  rcases hsum with e | e
  · rw [e]; exact Flt.divInt_zero_cases _
  · rw [e]; exact Or.inr rfl

/-- The self-comparison mean distance is 0 on a non-empty buffer of finite samples. -/
theorem compare_avg_dist_self_finite (sqrtf : ℚ → ℚ) (h0 : sqrtf 0 = 0) (a : axis_array)
    (hn : a.size ≠ 0)
    (hfin : ∀ i, 0 ≤ i → i < a.size → (a.x_arr i).isFinite = true ∧
      (a.y_arr i).isFinite = true ∧ (a.z_arr i).isFinite = true) :
    compare_avg_dist sqrtf a a = 0 := by
  have hsum : forLoop 0 a.size (compare_body sqrtf a a) 0 = 0 := by
    rcases le_or_lt a.size 0 with hle | hlt
    · exact forLoop_of_le _ _ hle
    · exact forLoop_invariant (compare_body sqrtf a a) (fun _ s => s = 0) 0 a.size 0
        hlt.le rfl (fun j s h1 h2 hs => by
          have hs2 : s = 0 := hs
          show compare_body sqrtf a a j s = 0
          rw [hs2]
          exact compare_body_self_finite sqrtf h0 a j (hfin j h1 h2).1 (hfin j h1 h2).2.1
            (hfin j h1 h2).2.2)
  simp only [compare_avg_dist, hsum]
  exact Flt.divInt_zero_of_ne hn

/-- C3: for every buffer `a` and every threshold `t >= 0`, `compare(a, a, t)` returns
true; the self-comparison mean distance is 0 or, on an empty buffer or with NaN or
infinite samples, NaN; it is 0 whenever the buffer is not empty and its samples are
finite (`sqrtf 0 = 0` is the value of `sqrt` at 0). -/
theorem compare_self (sqrtf : ℚ → ℚ) (a : axis_array) (t : Flt)
    (h0 : sqrtf 0 = 0) (ht : Flt.le 0 t = true) :
    compare sqrtf a a t = true ∧
    (compare_avg_dist sqrtf a a = 0 ∨ compare_avg_dist sqrtf a a = Flt.nan) ∧
    (a.size ≠ 0 →
      (∀ i, 0 ≤ i → i < a.size → (a.x_arr i).isFinite = true ∧
        (a.y_arr i).isFinite = true ∧ (a.z_arr i).isFinite = true) →
      compare_avg_dist sqrtf a a = 0) := by
  refine ⟨?_, compare_avg_dist_self_cases sqrtf h0 a,
    fun hn hfin => compare_avg_dist_self_finite sqrtf h0 a hn hfin⟩
  rcases compare_avg_dist_self_cases sqrtf h0 a with e | e
  · simp [compare, e, Flt.gt_zero_of_le ht]
  · simp [compare, e, Flt.gt_nan_left]

theorem compare_self_witness :
    compare Rat.sqrt (ramp_buffer 3) (ramp_buffer 3) THRESHOLD = true ∧
    compare_avg_dist Rat.sqrt (ramp_buffer 3) (ramp_buffer 3) = 0 :=
  ⟨(compare_self Rat.sqrt (ramp_buffer 3) THRESHOLD rat_sqrt_zero le_zero_THRESHOLD).1,
    (compare_self Rat.sqrt (ramp_buffer 3) THRESHOLD rat_sqrt_zero le_zero_THRESHOLD).2.2
      (by decide) (fun _ _ _ => ⟨rfl, rfl, rfl⟩)⟩

theorem compare_body_comm (sqrtf : ℚ → ℚ) (a b : axis_array) :
    compare_body sqrtf a b = compare_body sqrtf b a := by
  funext i sum
  simp only [compare_body]
  rw [Flt.sub_sq_comm (a.x_arr i), Flt.sub_sq_comm (a.y_arr i), Flt.sub_sq_comm (a.z_arr i)]

/-- C4: `compare` is symmetric: for all buffers `a`, `b` and every threshold `t`,
`compare(a, b, t) == compare(b, a, t)`. -/
theorem compare_symm (sqrtf : ℚ → ℚ) (a b : axis_array) (t : Flt) :
    compare sqrtf a b t = compare sqrtf b a t := by
  by_cases h : a.size = b.size
  · simp only [compare, compare_avg_dist, compare_body_comm sqrtf a b, h]
  · have h2 : b.size ≠ a.size := fun e => h e.symm
    simp [compare, h, h2]


/-! ## `calculate_moving_average` -/

theorem cma_store_size (data : axis_array) (k : Int) (s : window_sums) (w : Int) :
    (cma_store data k s w).size = data.size := rfl

/-- The filter never changes `size`. -/
theorem calculate_moving_average_size (data : axis_array) (w : Int) :
    (calculate_moving_average data w).size = data.size := by
  unfold calculate_moving_average
  split
  · rfl
  · have h1 : (forLoop w (cma_store data (Int.tdiv w 2)
        (forLoop 0 w (cma_init_body data) ⟨0, 0, 0⟩) w).size (cma_main_body w)
        (forLoop 0 w (cma_init_body data) ⟨0, 0, 0⟩,
          cma_store data (Int.tdiv w 2)
            (forLoop 0 w (cma_init_body data) ⟨0, 0, 0⟩) w)).2.size = data.size :=
      forLoop_preserves (cma_main_body w) (fun st => st.2.size = data.size) _ _ _ rfl
        (fun j st h => by simpa [cma_main_body, cma_store] using h)
    exact forLoop_preserves _ (fun (d : axis_array) => d.size = data.size) _ _ _ h1
      (fun j d h => by simpa [cma_fill_body, cma_store] using h)

/-- C5 fails on the code (window 10, sixteen samples, `x` = 10 at index 5 and 0
elsewhere, `i = 15`): the in-place filter leaves 9/10 in slot `i - window/2 = 10`,
because at `i = 15` it subtracts slot 5, which it has already overwritten with an
average; the mean of the original samples 6..15, which is what the out-of-place filter
of `rolling-average-test.cpp` writes at `k = i - window + 1 = 6`, is 0. -/
theorem calculate_moving_average_aliasing :
    (1 : Int) ≤ 10 ∧ 10 ≤ bump_buffer.size ∧ (10 : Int) ≤ 15 ∧ 15 < bump_buffer.size ∧
    (calculate_moving_average bump_buffer 10).x_arr (15 - Int.tdiv 10 2)
      = Flt.fin (9 / 10) ∧
    (RollingAverageTest.calculate_moving_average bump_buffer (zero_buffer 16) 10).x_arr
      (15 - 10 + 1) = Flt.fin 0 := by
  refine ⟨by decide, by decide, by decide, by decide, ?_, ?_⟩
  · simp [calculate_moving_average, bump_buffer, forLoop, forLoopAux, cma_init_body,
      cma_store, cma_main_body, cma_fill_body, Function.update, Int.tdiv,
      Flt.sub_def, Flt.add_def, Flt.zero_def, Flt.add, Flt.neg, Flt.divInt]
    norm_num
  · simp [RollingAverageTest.calculate_moving_average, RollingAverageTest.channel_average,
      RollingAverageTest.window_sum, bump_buffer, forLoop, forLoopAux,
      Function.update, Flt.add_def, Flt.zero_def, Flt.add, Flt.divInt]

/-- C6: when `window > size`, `calculate_moving_average` is a no-op: every slot of the
three channels and the size are unchanged. -/
theorem calculate_moving_average_noop (data : axis_array) (w : Int)
    (h : w > data.size) :
    (∀ i, (calculate_moving_average data w).x_arr i = data.x_arr i) ∧
    (∀ i, (calculate_moving_average data w).y_arr i = data.y_arr i) ∧
    (∀ i, (calculate_moving_average data w).z_arr i = data.z_arr i) ∧
    (calculate_moving_average data w).size = data.size := by
  simp [calculate_moving_average, h]

theorem calculate_moving_average_noop_witness :
    (10 : Int) > (ramp_buffer 7).size ∧
    (∀ i, (calculate_moving_average (ramp_buffer 7) 10).x_arr i = (ramp_buffer 7).x_arr i) ∧
    (calculate_moving_average (ramp_buffer 7) 10).size = 7 :=
  ⟨by decide,
    (calculate_moving_average_noop (ramp_buffer 7) 10 (by decide)).1,
    (calculate_moving_average_noop (ramp_buffer 7) 10 (by decide)).2.2.2⟩

/-! ## `truncate` -/

theorem shift_step (old cur : Int → Flt) (w j : Int) (hw : 0 ≤ w) (hj : 0 ≤ j)
    (h : ∀ k, cur k = if 0 ≤ k ∧ k < j then old (k + w) else old k) :
    ∀ k, Function.update cur j (cur (j + w)) k
      = if 0 ≤ k ∧ k < j + 1 then old (k + w) else old k := by
  intro k
  by_cases hk : k = j
  · subst hk
    have e : ¬ (0 ≤ k + w ∧ k + w < k) := by omega
    have e2 : 0 ≤ k ∧ k < k + 1 := by omega
    simp only [Function.update_same, h (k + w), if_neg e, if_pos e2]
  · rw [Function.update_noteq hk, h k]
    by_cases c : 0 ≤ k ∧ k < j
    · have c2 : 0 ≤ k ∧ k < j + 1 := by omega
      rw [if_pos c, if_pos c2]
    · have c2 : ¬ (0 ≤ k ∧ k < j + 1) := by omega
      rw [if_neg c, if_neg c2]

/-- The copy loop of `truncate`, run up to `m`, has moved slots `[w, m + w)` to `[0, m)`
and left everything else as it was. -/
theorem truncate_loop (data : axis_array) (w m : Int) (hw : 0 ≤ w) (hm : 0 ≤ m) :
    (∀ k, (forLoop 0 m (truncate_body w) data).x_arr k
      = if 0 ≤ k ∧ k < m then data.x_arr (k + w) else data.x_arr k) ∧
    (∀ k, (forLoop 0 m (truncate_body w) data).y_arr k
      = if 0 ≤ k ∧ k < m then data.y_arr (k + w) else data.y_arr k) ∧
    (∀ k, (forLoop 0 m (truncate_body w) data).z_arr k
      = if 0 ≤ k ∧ k < m then data.z_arr (k + w) else data.z_arr k) :=
  forLoop_invariant (truncate_body w)
    (fun j d =>
      (∀ k, d.x_arr k = if 0 ≤ k ∧ k < j then data.x_arr (k + w) else data.x_arr k) ∧
      (∀ k, d.y_arr k = if 0 ≤ k ∧ k < j then data.y_arr (k + w) else data.y_arr k) ∧
      (∀ k, d.z_arr k = if 0 ≤ k ∧ k < j then data.z_arr (k + w) else data.z_arr k))
    0 m data hm
    ⟨fun k => by rw [if_neg (by omega)], fun k => by rw [if_neg (by omega)],
      fun k => by rw [if_neg (by omega)]⟩
    (fun j d h1 _ hP =>
      ⟨shift_step data.x_arr d.x_arr w j hw h1 hP.1,
        shift_step data.y_arr d.y_arr w j hw h1 hP.2.1,
        shift_step data.z_arr d.z_arr w j hw h1 hP.2.2⟩)

/-- C7: for a buffer of size `n` and a window `w >= 0` with `2 * w <= n`, `truncate`
sets the size to `n - 2 * w` and, for every `i` in `[0, n - 2 * w)` and each channel,
the new slot `i` equals the old slot `i + w`. -/
theorem truncate_shift (data : axis_array) (w : Int) (hw : 0 ≤ w)
    (h : 2 * w ≤ data.size) :
    (truncate data w).size = data.size - 2 * w ∧
    ∀ i, 0 ≤ i → i < data.size - 2 * w →
      (truncate data w).x_arr i = data.x_arr (i + w) ∧
      (truncate data w).y_arr i = data.y_arr (i + w) ∧
      (truncate data w).z_arr i = data.z_arr (i + w) := by
  have hg : ¬ (w * 2 > data.size) := by omega
  have hm : 0 ≤ data.size - w * 2 := by omega
  have e : data.size - w * 2 = data.size - 2 * w := by ring
  obtain ⟨hx, hy, hz⟩ := truncate_loop data w (data.size - w * 2) hw hm
  simp only [truncate, if_neg hg]
  refine ⟨e, fun i h0 h1 => ?_⟩
  have c : 0 ≤ i ∧ i < data.size - w * 2 := by omega
  exact ⟨by rw [hx i, if_pos c], by rw [hy i, if_pos c], by rw [hz i, if_pos c]⟩

theorem truncate_shift_witness :
    (truncate (ramp_buffer 30) 10).size = 10 ∧
    (truncate (ramp_buffer 30) 10).x_arr 3 = Flt.fin 13 :=
  ⟨by
      have h := (truncate_shift (ramp_buffer 30) 10 (by decide) (by decide)).1
      simpa [ramp_buffer] using h,
    by
      have h := ((truncate_shift (ramp_buffer 30) 10 (by decide) (by decide)).2 3
        (by decide) (by decide)).1
      simpa [ramp_buffer] using h⟩

/-- C8: when `2 * window > size`, `truncate` is a no-op: every slot of the three
channels and the size are unchanged. -/
theorem truncate_noop (data : axis_array) (w : Int) (h : 2 * w > data.size) :
    (∀ i, (truncate data w).x_arr i = data.x_arr i) ∧
    (∀ i, (truncate data w).y_arr i = data.y_arr i) ∧
    (∀ i, (truncate data w).z_arr i = data.z_arr i) ∧
    (truncate data w).size = data.size := by
  have hg : w * 2 > data.size := by omega
  simp [truncate, hg]

theorem truncate_noop_witness :
    2 * (10 : Int) > (ramp_buffer 19).size ∧
    (∀ i, (truncate (ramp_buffer 19) 10).x_arr i = (ramp_buffer 19).x_arr i) ∧
    (truncate (ramp_buffer 19) 10).size = 19 :=
  ⟨by decide, (truncate_noop (ramp_buffer 19) 10 (by decide)).1,
    (truncate_noop (ramp_buffer 19) 10 (by decide)).2.2.2⟩

theorem truncate_size (data : axis_array) (w : Int) :
    (truncate data w).size = if w * 2 > data.size then data.size else data.size - w * 2 := by
  unfold truncate
  split <;> rfl

/-! ## The pipeline `calculate_moving_average` then `truncate` -/

/-- C9: for every buffer of size `n` and every window `w` (in particular `w >= 1`),
`calculate_moving_average` leaves the size equal to `n`; followed by `truncate` with the
same `w` it yields size `n - 2 * w` when `2 * w <= n` and size `n` otherwise; `n = 30`,
`w = 10` yields size 10; and two buffers of equal size come out of the pipeline with
equal sizes, so `compare` does not take its size-mismatch branch on them. -/
theorem filter_truncate_size (data : axis_array) (w : Int) :
    (calculate_moving_average data w).size = data.size ∧
    (2 * w ≤ data.size →
      (truncate (calculate_moving_average data w) w).size = data.size - 2 * w) ∧
    (data.size < 2 * w →
      (truncate (calculate_moving_average data w) w).size = data.size) ∧
    (truncate (calculate_moving_average { data with size := 30 } 10) 10).size = 10 ∧
    (∀ other : axis_array, other.size = data.size →
      (truncate (calculate_moving_average other w) w).size
        = (truncate (calculate_moving_average data w) w).size ∧
      ∀ (sqrtf : ℚ → ℚ) (t : Flt),
        compare sqrtf (truncate (calculate_moving_average other w) w)
            (truncate (calculate_moving_average data w) w) t
          = !(Flt.gt (compare_avg_dist sqrtf (truncate (calculate_moving_average other w) w)
              (truncate (calculate_moving_average data w) w)) t)) := by
  have hsz : ∀ d : axis_array, (truncate (calculate_moving_average d w) w).size
      = if w * 2 > d.size then d.size else d.size - w * 2 := fun d => by
    rw [truncate_size, calculate_moving_average_size]
  refine ⟨calculate_moving_average_size data w, fun h => ?_, fun h => ?_, ?_, fun other ho => ?_⟩
  · rw [hsz, if_neg (by omega)]; ring
  · rw [hsz, if_pos (by omega)]
  · rw [truncate_size, calculate_moving_average_size]
    simp
  · have e : (truncate (calculate_moving_average other w) w).size
        = (truncate (calculate_moving_average data w) w).size := by
      rw [hsz, hsz, ho]
    refine ⟨e, fun sqrtf t => ?_⟩
    simp only [compare, e, ne_eq, not_true_eq_false, if_false]
    cases Flt.gt (compare_avg_dist sqrtf (truncate (calculate_moving_average other w) w)
      (truncate (calculate_moving_average data w) w)) t <;> rfl

/-! ## The state machine -/

theorem clear_loop_state (lo hi : Int) (dev : Device) :
    (forLoop lo hi clear_all_buffers dev).state = dev.state :=
  forLoop_preserves clear_all_buffers (fun (d : Device) => d.state = dev.state) lo hi dev rfl
    (fun _ _ h => h)

theorem state_control_state (sqrtf : ℚ → ℚ) (rd : Readings) (dev : Device) :
    (state_control sqrtf rd dev).state = dev.state := by
  unfold state_control
  split
  · dsimp only
    split <;> rfl
  · exact clear_loop_state 0 CAPACITY dev
  · dsimp only
    split
    · rfl
    · split <;> rfl
  · rfl
  · rfl
  · rfl
  · rfl

theorem loop_state (sqrtf : ℚ → ℚ) (rd : Readings) (dev : Device) :
    (loop sqrtf rd dev).state = dev.next_state := by
  simp [loop, state_control_state]

theorem next_state_of_state1 (sqrtf : ℚ → ℚ) (rd : Readings) (dev : Device)
    (h : dev.state = 1) : (state_control sqrtf rd dev).next_state = 2 := by
  simp [state_control, h]

theorem next_state_of_state2 (sqrtf : ℚ → ℚ) (rd : Readings) (dev : Device)
    (h : dev.state = 2) :
    (state_control sqrtf rd dev).next_state
      = if rd.l_btn 0 then 1 else if rd.r_btn 0 then 3 else 2 := by
  simp only [state_control, h]
  split <;> (try split) <;> rfl

theorem next_state_of_state3 (sqrtf : ℚ → ℚ) (rd : Readings) (dev : Device)
    (h : dev.state = 3) :
    (state_control sqrtf rd dev).next_state = 4 ∨
    (state_control sqrtf rd dev).next_state = 5 := by
  simp only [state_control, h]
  split <;> simp

theorem recorded_device_next_state : recorded_device.next_state = 2 := by
  have h : (loop Rat.sqrt left_held setup).next_state = 1 := by
    simp [loop, state_control, setup, left_held]
  simp only [recorded_device, loop]
  exact next_state_of_state1 _ _ _ h

/-- C10 (as amended): in state 2, when the right button reads as pressed and the left
button does not, the next state is 3; the dispatch that follows runs state 3 and selects
4 or 5 as its next state, so the state after state 3 is 4 or 5 (never 2 directly). -/
theorem state2_right_press (sqrtf : ℚ → ℚ) (rd rd3 rd4 : Readings) (dev : Device)
    (hs : dev.state = 2) (hr : rd.r_btn 0 = true) (hl : rd.l_btn 0 = false) :
    (state_control sqrtf rd dev).next_state = 3 ∧
    (loop sqrtf rd3 (state_control sqrtf rd dev)).state = 3 ∧
    ((loop sqrtf rd3 (state_control sqrtf rd dev)).next_state = 4 ∨
      (loop sqrtf rd3 (state_control sqrtf rd dev)).next_state = 5) ∧
    ((loop sqrtf rd4 (loop sqrtf rd3 (state_control sqrtf rd dev))).state = 4 ∨
      (loop sqrtf rd4 (loop sqrtf rd3 (state_control sqrtf rd dev))).state = 5) := by
  have h3 : (state_control sqrtf rd dev).next_state = 3 := by
    rw [next_state_of_state2 sqrtf rd dev hs, hl, hr]
    rfl
  have h45 : (loop sqrtf rd3 (state_control sqrtf rd dev)).next_state = 4 ∨
      (loop sqrtf rd3 (state_control sqrtf rd dev)).next_state = 5 :=
    next_state_of_state3 sqrtf rd3 _ h3
  refine ⟨h3, by rw [loop_state, h3], h45, ?_⟩
  rw [loop_state]
  exact h45

/-- C10 fails as stated: in state 2 with both buttons pressed, the right button reads
as pressed and the next state is 1, not 3. -/
theorem state2_right_press_counterexample :
    (loop Rat.sqrt both_held recorded_device).state = 2 ∧
    both_held.r_btn 0 = true ∧
    (loop Rat.sqrt both_held recorded_device).next_state = 1 := by
  refine ⟨by rw [loop_state, recorded_device_next_state], rfl, ?_⟩
  simp only [loop]
  rw [next_state_of_state2 _ _ _ recorded_device_next_state]
  rfl

theorem state2_right_press_witness :
    (loop Rat.sqrt no_button recorded_device).state = 2 ∧
    right_held.r_btn 0 = true ∧ right_held.l_btn 0 = false ∧
    (state_control Rat.sqrt right_held
      (loop Rat.sqrt no_button recorded_device)).next_state = 3 ∧
    ((loop Rat.sqrt no_button (loop Rat.sqrt no_button (state_control Rat.sqrt right_held
      (loop Rat.sqrt no_button recorded_device)))).state = 4 ∨
     (loop Rat.sqrt no_button (loop Rat.sqrt no_button (state_control Rat.sqrt right_held
      (loop Rat.sqrt no_button recorded_device)))).state = 5) :=
  ⟨by rw [loop_state, recorded_device_next_state], rfl, rfl,
    (state2_right_press Rat.sqrt right_held no_button no_button
      (loop Rat.sqrt no_button recorded_device)
      (by rw [loop_state, recorded_device_next_state]) rfl rfl).1,
    (state2_right_press Rat.sqrt right_held no_button no_button
      (loop Rat.sqrt no_button recorded_device)
      (by rw [loop_state, recorded_device_next_state]) rfl rfl).2.2.2⟩

theorem clear_loop_next_state (lo hi : Int) (dev : Device) :
    (forLoop lo hi clear_all_buffers dev).next_state = dev.next_state :=
  forLoop_preserves clear_all_buffers (fun (d : Device) => d.next_state = dev.next_state)
    lo hi dev rfl (fun _ _ h => h)

theorem next_state_of_state0 (sqrtf : ℚ → ℚ) (rd : Readings) (dev : Device)
    (h : dev.state = 0) :
    (state_control sqrtf rd dev).next_state = if rd.l_btn 0 then 1 else dev.next_state := by
  simp only [state_control, h]
  split <;> rfl

theorem next_state_of_state3_eq (sqrtf : ℚ → ℚ) (rd : Readings) (dev : Device)
    (h : dev.state = 3) :
    (state_control sqrtf rd dev).next_state
      = if compare sqrtf (state_control sqrtf rd dev).raw_attempted_pattern
          (state_control sqrtf rd dev).raw_unlock_code THRESHOLD then 5 else 4 := by
  simp only [state_control, h]

theorem next_state_of_state4 (sqrtf : ℚ → ℚ) (rd : Readings) (dev : Device)
    (h : dev.state = 4) : (state_control sqrtf rd dev).next_state = 2 := by
  simp only [state_control, h]

theorem next_state_of_state5 (sqrtf : ℚ → ℚ) (rd : Readings) (dev : Device)
    (h : dev.state = 5) : (state_control sqrtf rd dev).next_state = 2 := by
  simp only [state_control, h]

/-- C11: for every state in 0..5 and every pair of button readings, the next state
selected by one dispatch (`loop`) is the one of the transition table: 0 goes to 1 on a
left press and stays 0 otherwise; 1 goes to 2; 2 goes to 1 on a left press, to 3 on a
right press without left press, and stays 2 otherwise; 3 goes to 5 when
`compare(attempt, reference, THRESHOLD)` is true and to 4 otherwise; 4 and 5 go to 2. -/
theorem loop_next_state_table (sqrtf : ℚ → ℚ) (rd : Readings) (dev : Device)
    (h : dev.next_state ≤ 5) :
    (loop sqrtf rd dev).next_state
      = transition_table dev.next_state (rd.l_btn 0) (rd.r_btn 0)
          (compare sqrtf (loop sqrtf rd dev).raw_attempted_pattern
            (loop sqrtf rd dev).raw_unlock_code THRESHOLD) := by
  have hcases : dev.next_state = 0 ∨ dev.next_state = 1 ∨ dev.next_state = 2 ∨
      dev.next_state = 3 ∨ dev.next_state = 4 ∨ dev.next_state = 5 := by omega
  generalize hc : compare sqrtf (loop sqrtf rd dev).raw_attempted_pattern
    (loop sqrtf rd dev).raw_unlock_code THRESHOLD = c
  rcases hcases with e | e | e | e | e | e
  · have hs : ({ dev with state := dev.next_state } : Device).state = 0 := e
    rw [loop, next_state_of_state0 sqrtf rd _ hs, e]
    rfl
  · have hs : ({ dev with state := dev.next_state } : Device).state = 1 := e
    rw [loop, next_state_of_state1 sqrtf rd _ hs, e]
    rfl
  · have hs : ({ dev with state := dev.next_state } : Device).state = 2 := e
    rw [loop, next_state_of_state2 sqrtf rd _ hs, e]
    rfl
  · have hs : ({ dev with state := dev.next_state } : Device).state = 3 := e
    have h3 : (loop sqrtf rd dev).next_state = if compare sqrtf
        (loop sqrtf rd dev).raw_attempted_pattern
        (loop sqrtf rd dev).raw_unlock_code THRESHOLD then 5 else 4 :=
      next_state_of_state3_eq sqrtf rd _ hs
    rw [h3, hc, e]
    rfl
  · have hs : ({ dev with state := dev.next_state } : Device).state = 4 := e
    rw [loop, next_state_of_state4 sqrtf rd _ hs, e]
    rfl
  · have hs : ({ dev with state := dev.next_state } : Device).state = 5 := e
    rw [loop, next_state_of_state5 sqrtf rd _ hs, e]
    rfl

theorem loop_next_state_table_witness :
    recorded_device.next_state ≤ 5 ∧
    (loop Rat.sqrt right_held recorded_device).next_state = 3 := by
  have h := loop_next_state_table Rat.sqrt right_held recorded_device
    (by rw [recorded_device_next_state]; decide)
  rw [recorded_device_next_state] at h
  exact ⟨by rw [recorded_device_next_state]; decide, h⟩

theorem clear_buffer_size (data : axis_array) (i : Int) :
    (clear_buffer data i).size = data.size := rfl

/-- C17: the state-3 step (capture, filter, truncate, compare) leaves `raw_unlock_code`
with the same size and the same slot values in all three channels, for every
configuration in state 3 and all readings; and the steps of states 0, 2, 4 and 5 leave
both buffers unchanged. -/
theorem attempt_keeps_reference (sqrtf : ℚ → ℚ) (rd : Readings) (dev : Device) :
    (dev.state = 3 →
      (state_control sqrtf rd dev).raw_unlock_code.size = dev.raw_unlock_code.size ∧
      (∀ i, (state_control sqrtf rd dev).raw_unlock_code.x_arr i
        = dev.raw_unlock_code.x_arr i) ∧
      (∀ i, (state_control sqrtf rd dev).raw_unlock_code.y_arr i
        = dev.raw_unlock_code.y_arr i) ∧
      (∀ i, (state_control sqrtf rd dev).raw_unlock_code.z_arr i
        = dev.raw_unlock_code.z_arr i)) ∧
    (dev.state = 0 ∨ dev.state = 2 ∨ dev.state = 4 ∨ dev.state = 5 →
      (state_control sqrtf rd dev).raw_unlock_code = dev.raw_unlock_code ∧
      (state_control sqrtf rd dev).raw_attempted_pattern = dev.raw_attempted_pattern) := by
  constructor
  · intro h
    simp [state_control, h]
  · intro h
    rcases h with h | h | h | h
    · simp only [state_control, h]
      split <;> simp
    · simp only [state_control, h]
      split
      · simp
      · split <;> simp
    · simp [state_control, h]
    · simp [state_control, h]

/-! ## Loops run in step, and the stages of the filter -/

/-- Two loops over the same range keep a relation that every pair of iterations keeps. -/
theorem forLoop_rel {σ τ : Type} (f : Int → σ → σ) (g : Int → τ → τ) (R : σ → τ → Prop)
    (lo hi : Int) (s : σ) (t : τ) (h0 : R s t)
    (hstep : ∀ j s1 t1, lo ≤ j → j < hi → R s1 t1 → R (f j s1) (g j t1)) :
    R (forLoop lo hi f s) (forLoop lo hi g t) := by
  rcases le_or_lt hi lo with hle | hlt
  · rw [forLoop_of_le f s hle, forLoop_of_le g t hle]
    exact h0
  · exact forLoop_invariant f (fun j s1 => R s1 (forLoop lo j g t)) lo hi s hlt.le
      (by
        show R s (forLoop lo lo g t)
        rw [forLoop_of_le g t (le_refl lo)]
        exact h0)
      (fun j s1 h1 h2 hP => by
        show R (f j s1) (forLoop lo (j + 1) g t)
        rw [forLoop_last g t h1]
        exact hstep j s1 _ h1 h2 hP)

theorem calculate_moving_average_unfold (data : axis_array) (w : Int)
    (h : ¬ w > data.size) :
    calculate_moving_average data w
      = forLoop ((cma_main_pass data w).2.size - Int.tdiv w 2) (cma_main_pass data w).2.size
          (cma_fill_body w (cma_main_pass data w).1) (cma_main_pass data w).2 := by
  simp only [calculate_moving_average, if_neg h, cma_main_pass, cma_first_sums, cma_store_size]

theorem cma_main_pass_size (data : axis_array) (w : Int) :
    (cma_main_pass data w).2.size = data.size :=
  forLoop_preserves (cma_main_body w) (fun st => st.2.size = data.size) _ _ _ rfl
    (fun j st h => by simpa [cma_main_body, cma_store] using h)

theorem tdiv_two_eq (w : Int) (h : 0 ≤ w) : Int.tdiv w 2 = w / 2 :=
  Int.tdiv_eq_ediv h (by decide)

/-! ## The clearing loop and the recording loop -/

theorem clear_step (old cur : Int → Flt) (j : Int) (hj : 0 ≤ j)
    (h : ∀ k, cur k = if 0 ≤ k ∧ k < j then 0 else old k) :
    ∀ k, Function.update cur j 0 k = if 0 ≤ k ∧ k < j + 1 then 0 else old k := by
  intro k
  by_cases hk : k = j
  · subst hk
    have e2 : 0 ≤ k ∧ k < k + 1 := by omega
    simp only [Function.update_same, if_pos e2]
  · rw [Function.update_noteq hk, h k]
    by_cases c : 0 ≤ k ∧ k < j
    · have c2 : 0 ≤ k ∧ k < j + 1 := by omega
      rw [if_pos c, if_pos c2]
    · have c2 : ¬ (0 ≤ k ∧ k < j + 1) := by omega
      rw [if_neg c, if_neg c2]

/-- What a buffer is after the clearing of its slots `0 .. m - 1`. -/
theorem clear_buffer_loop (data : axis_array) (m : Int) (hm : 0 ≤ m) :
    (forLoop 0 m (fun i b => clear_buffer b i) data).size = data.size ∧
    (∀ k, (forLoop 0 m (fun i b => clear_buffer b i) data).x_arr k
      = if 0 ≤ k ∧ k < m then 0 else data.x_arr k) ∧
    (∀ k, (forLoop 0 m (fun i b => clear_buffer b i) data).y_arr k
      = if 0 ≤ k ∧ k < m then 0 else data.y_arr k) ∧
    (∀ k, (forLoop 0 m (fun i b => clear_buffer b i) data).z_arr k
      = if 0 ≤ k ∧ k < m then 0 else data.z_arr k) :=
  forLoop_invariant (fun i b => clear_buffer b i)
    (fun j d =>
      d.size = data.size ∧
      (∀ k, d.x_arr k = if 0 ≤ k ∧ k < j then 0 else data.x_arr k) ∧
      (∀ k, d.y_arr k = if 0 ≤ k ∧ k < j then 0 else data.y_arr k) ∧
      (∀ k, d.z_arr k = if 0 ≤ k ∧ k < j then 0 else data.z_arr k))
    0 m data hm
    ⟨rfl, fun k => by rw [if_neg (by omega)], fun k => by rw [if_neg (by omega)],
      fun k => by rw [if_neg (by omega)]⟩
    (fun j d h1 _ hP =>
      ⟨hP.1, clear_step data.x_arr d.x_arr j h1 hP.2.1,
        clear_step data.y_arr d.y_arr j h1 hP.2.2.1,
        clear_step data.z_arr d.z_arr j h1 hP.2.2.2⟩)

/-- The clearing loop of state 1 clears each of the two buffers and changes nothing else. -/
theorem clear_loop_buffers (lo hi : Int) (dev : Device) :
    (forLoop lo hi clear_all_buffers dev).raw_unlock_code
      = forLoop lo hi (fun i b => clear_buffer b i) dev.raw_unlock_code ∧
    (forLoop lo hi clear_all_buffers dev).raw_attempted_pattern
      = forLoop lo hi (fun i b => clear_buffer b i) dev.raw_attempted_pattern :=
  ⟨forLoop_rel clear_all_buffers (fun i b => clear_buffer b i)
      (fun (d : Device) (b : axis_array) => d.raw_unlock_code = b) lo hi dev _ rfl
      (fun j d b _ _ h => by
        show clear_buffer d.raw_unlock_code j = clear_buffer b j
        rw [h]),
    forLoop_rel clear_all_buffers (fun i b => clear_buffer b i)
      (fun (d : Device) (b : axis_array) => d.raw_attempted_pattern = b) lo hi dev _ rfl
      (fun j d b _ _ h => by
        show clear_buffer d.raw_attempted_pattern j = clear_buffer b j
        rw [h])⟩

theorem CAPACITY_eq : CAPACITY = 50 := by decide

theorem CAPACITY_toNat : CAPACITY.toNat = 50 := by decide

/-- C14 (as amended): the clearing loop of state 1 leaves each of the two buffers with
every slot `0 .. N - 1` of its `x`, `y` and `z` channels equal to `0.0`, where
`N = MAX_TIME / POLLING_DELAY = 50`, and with its size unchanged, for every prior
content and size of the buffers. -/
theorem clear_loop_zeroes (dev : Device) :
    CAPACITY = 50 ∧
    (∀ k, 0 ≤ k → k < CAPACITY →
      (forLoop 0 CAPACITY clear_all_buffers dev).raw_unlock_code.x_arr k = 0 ∧
      (forLoop 0 CAPACITY clear_all_buffers dev).raw_unlock_code.y_arr k = 0 ∧
      (forLoop 0 CAPACITY clear_all_buffers dev).raw_unlock_code.z_arr k = 0 ∧
      (forLoop 0 CAPACITY clear_all_buffers dev).raw_attempted_pattern.x_arr k = 0 ∧
      (forLoop 0 CAPACITY clear_all_buffers dev).raw_attempted_pattern.y_arr k = 0 ∧
      (forLoop 0 CAPACITY clear_all_buffers dev).raw_attempted_pattern.z_arr k = 0) ∧
    (forLoop 0 CAPACITY clear_all_buffers dev).raw_unlock_code.size
      = dev.raw_unlock_code.size ∧
    (forLoop 0 CAPACITY clear_all_buffers dev).raw_attempted_pattern.size
      = dev.raw_attempted_pattern.size := by
  obtain ⟨e1, e2⟩ := clear_loop_buffers 0 CAPACITY dev
  have hc : (0 : Int) ≤ CAPACITY := by decide
  obtain ⟨s1, x1, y1, z1⟩ := clear_buffer_loop dev.raw_unlock_code CAPACITY hc
  obtain ⟨s2, x2, y2, z2⟩ := clear_buffer_loop dev.raw_attempted_pattern CAPACITY hc
  refine ⟨CAPACITY_eq, fun k h0 h1 => ?_, by rw [e1, s1], by rw [e2, s2]⟩
  have c : 0 ≤ k ∧ k < CAPACITY := ⟨h0, h1⟩
  rw [e1, e2]
  exact ⟨by rw [x1 k, if_pos c], by rw [y1 k, if_pos c], by rw [z1 k, if_pos c],
    by rw [x2 k, if_pos c], by rw [y2 k, if_pos c], by rw [z2 k, if_pos c]⟩

theorem record_loop_pressed (motion : Nat → axis_data) (btn : Nat → Bool) (left i : Nat)
    (st : axis_data × axis_array) : record_loop motion btn left i true st = (i, st) := by
  cases left <;> simp [record_loop]

/-- The recording loop, started at `i` with `left` iterations allowed, captures the
samples `i .. n - 1` when the readings `i .. n - 1` are "not pressed" and either `n` is
the bound `i + left` or reading `n` is "pressed". -/
theorem record_loop_spec (motion : Nat → axis_data) (btn : Nat → Bool) :
    ∀ (left i n : Nat) (st : axis_data × axis_array), i ≤ n → n ≤ i + left →
      (∀ k, i ≤ k → k < n → btn k = false) → (n < i + left → btn n = true) →
      (record_loop motion btn left i (btn i) st).1 = n ∧
      (record_loop motion btn left i (btn i) st).2.2.size = st.2.size ∧
      (∀ j : Int, (record_loop motion btn left i (btn i) st).2.2.x_arr j
        = if (i : Int) ≤ j ∧ j < n then (motion j.toNat).x else st.2.x_arr j) ∧
      (∀ j : Int, (record_loop motion btn left i (btn i) st).2.2.y_arr j
        = if (i : Int) ≤ j ∧ j < n then (motion j.toNat).y else st.2.y_arr j) ∧
      (∀ j : Int, (record_loop motion btn left i (btn i) st).2.2.z_arr j
        = if (i : Int) ≤ j ∧ j < n then (motion j.toNat).z else st.2.z_arr j) := by
  intro left
  induction left with
  | zero =>
    intro i n st h1 h2 _ _
    have e : n = i := by omega
    subst e
    have hun : record_loop motion btn 0 n (btn n) st = (n, st) := rfl
    rw [hun]
    exact ⟨rfl, rfl, fun j => by rw [if_neg (by omega)], fun j => by rw [if_neg (by omega)],
      fun j => by rw [if_neg (by omega)]⟩
  | succ m ih =>
    intro i n st h1 h2 hfalse htrue
    by_cases hb : btn i = true
    · have e : n = i := by
        by_contra hne
        have := hfalse i (le_refl i) (by omega)
        rw [this] at hb
        exact Bool.false_ne_true hb
      subst e
      rw [hb, record_loop_pressed]
      exact ⟨rfl, rfl, fun j => by rw [if_neg (by omega)],
        fun j => by rw [if_neg (by omega)], fun j => by rw [if_neg (by omega)]⟩
    · have hlt : i < n := by
        by_contra hge
        have e : n = i := by omega
        exact hb (e ▸ htrue (by omega))
      have hb2 : btn i = false := by simpa using hb
      obtain ⟨r1, r2, rx, ry, rz⟩ := ih (i + 1) n
        (motion i, record_data (i : Int) st.2 (motion i)) (by omega) (by omega)
        (fun k hk1 hk2 => hfalse k (by omega) hk2) (fun hn => htrue (by omega))
      have hun : record_loop motion btn (m + 1) i (btn i) st
          = record_loop motion btn m (i + 1) (btn (i + 1))
              (motion i, record_data (i : Int) st.2 (motion i)) := by
        rw [hb2]
        simp [record_loop]
      rw [hun]
      refine ⟨r1, r2, fun j => ?_, fun j => ?_, fun j => ?_⟩
      · rw [rx j]
        by_cases hj : j = (i : Int)
        · subst hj
          have c1 : ¬ (((i + 1 : Nat) : Int) ≤ (i : Int) ∧ (i : Int) < n) := by omega
          have c2 : (i : Int) ≤ (i : Int) ∧ (i : Int) < n := by omega
          rw [if_neg c1, if_pos c2]
          simp [record_data]
        · by_cases c : ((i + 1 : Nat) : Int) ≤ j ∧ j < n
          · have c2 : (i : Int) ≤ j ∧ j < n := by omega
            rw [if_pos c, if_pos c2]
          · have c2 : ¬ ((i : Int) ≤ j ∧ j < n) := by omega
            rw [if_neg c, if_neg c2]
            simp [record_data, Function.update_noteq hj]
      · rw [ry j]
        by_cases hj : j = (i : Int)
        · subst hj
          have c1 : ¬ (((i + 1 : Nat) : Int) ≤ (i : Int) ∧ (i : Int) < n) := by omega
          have c2 : (i : Int) ≤ (i : Int) ∧ (i : Int) < n := by omega
          rw [if_neg c1, if_pos c2]
          simp [record_data]
        · by_cases c : ((i + 1 : Nat) : Int) ≤ j ∧ j < n
          · have c2 : (i : Int) ≤ j ∧ j < n := by omega
            rw [if_pos c, if_pos c2]
          · have c2 : ¬ ((i : Int) ≤ j ∧ j < n) := by omega
            rw [if_neg c, if_neg c2]
            simp [record_data, Function.update_noteq hj]
      · rw [rz j]
        by_cases hj : j = (i : Int)
        · subst hj
          have c1 : ¬ (((i + 1 : Nat) : Int) ≤ (i : Int) ∧ (i : Int) < n) := by omega
          have c2 : (i : Int) ≤ (i : Int) ∧ (i : Int) < n := by omega
          rw [if_neg c1, if_pos c2]
          simp [record_data]
        · by_cases c : ((i + 1 : Nat) : Int) ≤ j ∧ j < n
          · have c2 : (i : Int) ≤ j ∧ j < n := by omega
            rw [if_pos c, if_pos c2]
          · have c2 : ¬ ((i : Int) ≤ j ∧ j < n) := by omega
            rw [if_neg c, if_neg c2]
            simp [record_data, Function.update_noteq hj]

/-- The final `i` of a recording loop lies between its start and its bound. -/
theorem record_loop_count (motion : Nat → axis_data) (btn : Nat → Bool) :
    ∀ (left i : Nat) (press : Bool) (st : axis_data × axis_array),
      i ≤ (record_loop motion btn left i press st).1 ∧
      (record_loop motion btn left i press st).1 ≤ i + left := by
  intro left
  induction left with
  | zero =>
    intro i press st
    simp [record_loop]
  | succ m ih =>
    intro i press st
    cases press
    · have h := ih (i + 1) (btn (i + 1)) (motion i, record_data (i : Int) st.2 (motion i))
      simp only [record_loop, Bool.false_eq_true, if_false]
      omega
    · rw [record_loop_pressed]
      simp

/-- The buffer handed to the filter when the loop captures exactly `n` samples: its size
is `n` and its slots `0 .. n - 1` hold the readings, the others what they held. -/
theorem recorded_buffer_spec (motion : Nat → axis_data) (btn : Nat → Bool)
    (acc : axis_data) (data : axis_array) (n : Nat) (h : captures btn n) :
    (recorded_buffer motion btn acc data).size = n ∧
    (∀ j : Int, (recorded_buffer motion btn acc data).x_arr j
      = if 0 ≤ j ∧ j < n then (motion j.toNat).x else data.x_arr j) ∧
    (∀ j : Int, (recorded_buffer motion btn acc data).y_arr j
      = if 0 ≤ j ∧ j < n then (motion j.toNat).y else data.y_arr j) ∧
    (∀ j : Int, (recorded_buffer motion btn acc data).z_arr j
      = if 0 ≤ j ∧ j < n then (motion j.toNat).z else data.z_arr j) := by
  obtain ⟨hn, hfalse, htrue⟩ := h
  rw [CAPACITY_eq] at hn htrue
  obtain ⟨r1, _, rx, ry, rz⟩ := record_loop_spec motion btn 50 0 n (acc, data) (by omega)
    (by omega) (fun k _ hk => hfalse k hk) (fun hlt => htrue (by omega))
  simp only [recorded_buffer, CAPACITY_toNat]
  refine ⟨by rw [r1], fun j => ?_, fun j => ?_, fun j => ?_⟩
  · simpa using rx j
  · simpa using ry j
  · simpa using rz j

/-- Every recording captures some number of samples, between 0 and the capacity, and
the size handed to the filter is that number. -/
theorem recorded_buffer_size (motion : Nat → axis_data) (btn : Nat → Bool)
    (acc : axis_data) (data : axis_array) :
    0 ≤ (recorded_buffer motion btn acc data).size ∧
    (recorded_buffer motion btn acc data).size ≤ CAPACITY := by
  have h := record_loop_count motion btn CAPACITY.toNat 0 (btn 0) (acc, data)
  simp only [recorded_buffer]
  rw [CAPACITY_toNat] at h ⊢
  rw [CAPACITY_eq]
  omega

/-! ## The recording steps of the state machine -/

theorem state1_raw_unlock_code (sqrtf : ℚ → ℚ) (rd : Readings) (dev : Device)
    (h : dev.state = 1) :
    (state_control sqrtf rd dev).raw_unlock_code
      = truncate (calculate_moving_average
          (recorded_buffer rd.motion rd.l_btn
            (forLoop 0 CAPACITY clear_all_buffers dev).acc_data
            (forLoop 0 CAPACITY clear_all_buffers dev).raw_unlock_code) 10) 10 := by
  simp only [state_control, h, recorded_buffer]

theorem state1_raw_attempted_pattern (sqrtf : ℚ → ℚ) (rd : Readings) (dev : Device)
    (h : dev.state = 1) :
    (state_control sqrtf rd dev).raw_attempted_pattern
      = (forLoop 0 CAPACITY clear_all_buffers dev).raw_attempted_pattern := by
  simp only [state_control, h]

theorem state3_raw_attempted_pattern (sqrtf : ℚ → ℚ) (rd : Readings) (dev : Device)
    (h : dev.state = 3) :
    (state_control sqrtf rd dev).raw_attempted_pattern
      = truncate (calculate_moving_average
          (recorded_buffer rd.motion rd.r_btn dev.acc_data dev.raw_attempted_pattern)
          10) 10 := by
  simp only [state_control, h, recorded_buffer]

theorem state3_raw_unlock_code (sqrtf : ℚ → ℚ) (rd : Readings) (dev : Device)
    (h : dev.state = 3) :
    (state_control sqrtf rd dev).raw_unlock_code = dev.raw_unlock_code := by
  simp only [state_control, h]

/-- The size that filter and truncation with window 10 leave, from the size before. -/
theorem processed_size (data : axis_array) :
    (truncate (calculate_moving_average data 10) 10).size
      = if 20 ≤ data.size then data.size - 20 else data.size := by
  rw [truncate_size, calculate_moving_average_size]
  by_cases h : 20 ≤ data.size
  · rw [if_neg (by omega), if_pos h]
    ring
  · rw [if_pos (by omega), if_neg h]

theorem captures_zero (btn : Nat → Bool) (h : btn 0 = true) : captures btn 0 :=
  ⟨by decide, fun k hk => absurd hk (Nat.not_lt_zero k), fun _ => h⟩

/-- A recording session entered with the left button still held captures nothing. -/
theorem state1_unlock_size_of_pressed (sqrtf : ℚ → ℚ) (rd : Readings) (dev : Device)
    (h : dev.state = 1) (hp : rd.l_btn 0 = true) :
    (state_control sqrtf rd dev).raw_unlock_code.size = 0 := by
  have hz := (recorded_buffer_spec rd.motion rd.l_btn
    (forLoop 0 CAPACITY clear_all_buffers dev).acc_data
    (forLoop 0 CAPACITY clear_all_buffers dev).raw_unlock_code 0 (captures_zero _ hp)).1
  rw [state1_raw_unlock_code sqrtf rd dev h, processed_size, hz]
  simp

theorem recorded_device_unlock_size : recorded_device.raw_unlock_code.size = 0 := by
  have h : ({ loop Rat.sqrt left_held setup with
      state := (loop Rat.sqrt left_held setup).next_state } : Device).state = 1 := by
    simp [loop, state_control, setup, left_held]
  show (state_control Rat.sqrt left_held { loop Rat.sqrt left_held setup with
      state := (loop Rat.sqrt left_held setup).next_state }).raw_unlock_code.size = 0
  exact state1_unlock_size_of_pressed Rat.sqrt left_held _ h rfl

/-- C14 fails as stated: after `setup`, a first dispatch and a recording session with
the left button held, `raw_unlock_code.size` is 0; the clearing loop that opens the next
recording session leaves it 0, not the capacity 50. -/
theorem clear_loop_zeroes_counterexample :
    recorded_device.raw_unlock_code.size = 0 ∧
    (forLoop 0 CAPACITY clear_all_buffers recorded_device).raw_unlock_code.size = 0 ∧
    CAPACITY = 50 := by
  refine ⟨recorded_device_unlock_size, ?_, CAPACITY_eq⟩
  rw [(clear_loop_buffers 0 CAPACITY recorded_device).1,
    (clear_buffer_loop recorded_device.raw_unlock_code CAPACITY (by decide)).1]
  exact recorded_device_unlock_size

/-! ## Sizes in the reachable configurations -/

theorem processed_size_bounds (data : axis_array) (h0 : 0 ≤ data.size)
    (h1 : data.size ≤ CAPACITY) :
    0 ≤ (truncate (calculate_moving_average data 10) 10).size ∧
    (truncate (calculate_moving_average data 10) 10).size ≤ CAPACITY := by
  rw [processed_size]
  split <;> constructor <;> omega

/-- One call of `state_control`, in any state, keeps both sizes within `0 .. N`. -/
theorem state_control_sizes (sqrtf : ℚ → ℚ) (rd : Readings) (dev : Device)
    (hu : 0 ≤ dev.raw_unlock_code.size ∧ dev.raw_unlock_code.size ≤ CAPACITY)
    (ha : 0 ≤ dev.raw_attempted_pattern.size ∧ dev.raw_attempted_pattern.size ≤ CAPACITY) :
    (0 ≤ (state_control sqrtf rd dev).raw_unlock_code.size ∧
      (state_control sqrtf rd dev).raw_unlock_code.size ≤ CAPACITY) ∧
    (0 ≤ (state_control sqrtf rd dev).raw_attempted_pattern.size ∧
      (state_control sqrtf rd dev).raw_attempted_pattern.size ≤ CAPACITY) := by
  by_cases h1 : dev.state = 1
  · rw [state1_raw_unlock_code sqrtf rd dev h1, state1_raw_attempted_pattern sqrtf rd dev h1,
      (clear_loop_buffers 0 CAPACITY dev).2,
      (clear_buffer_loop dev.raw_attempted_pattern CAPACITY (by decide)).1]
    exact ⟨processed_size_bounds _ (recorded_buffer_size _ _ _ _).1
      (recorded_buffer_size _ _ _ _).2, ha⟩
  · by_cases h3 : dev.state = 3
    · rw [state3_raw_unlock_code sqrtf rd dev h3, state3_raw_attempted_pattern sqrtf rd dev h3]
      exact ⟨hu, processed_size_bounds _ (recorded_buffer_size _ _ _ _).1
        (recorded_buffer_size _ _ _ _).2⟩
    · have e : (state_control sqrtf rd dev).raw_unlock_code = dev.raw_unlock_code ∧
          (state_control sqrtf rd dev).raw_attempted_pattern = dev.raw_attempted_pattern := by
        unfold state_control
        split
        · dsimp only
          split <;> exact ⟨rfl, rfl⟩
        · exact absurd (by assumption) h1
        · dsimp only
          split
          · exact ⟨rfl, rfl⟩
          · split <;> exact ⟨rfl, rfl⟩
        · exact absurd (by assumption) h3
        · exact ⟨rfl, rfl⟩
        · exact ⟨rfl, rfl⟩
        · exact ⟨rfl, rfl⟩
      rw [e.1, e.2]
      exact ⟨hu, ha⟩

theorem reachable_size_bounds (sqrtf : ℚ → ℚ) (dev : Device) (hr : Reachable sqrtf dev) :
    (0 ≤ dev.raw_unlock_code.size ∧ dev.raw_unlock_code.size ≤ CAPACITY) ∧
    (0 ≤ dev.raw_attempted_pattern.size ∧ dev.raw_attempted_pattern.size ≤ CAPACITY) := by
  induction hr with
  | setup => exact ⟨⟨by decide, by decide⟩, ⟨by decide, by decide⟩⟩
  | step rd d _ ih => exact state_control_sizes sqrtf rd _ ih.1 ih.2

/-- Every sequence of button readings stops a recording after some number of samples. -/
theorem captures_exists (btn : Nat → Bool) : ∃ n, captures btn n := by
  by_cases h : ∃ k, k < 50 ∧ btn k = true
  · refine ⟨Nat.find h, ?_, ?_, ?_⟩
    · have := (Nat.find_spec h).1
      rw [CAPACITY_eq]
      omega
    · intro k hk
      have := Nat.find_min h hk
      by_contra hb
      exact this ⟨by have := (Nat.find_spec h).1; omega, by simpa using hb⟩
    · intro _
      exact (Nat.find_spec h).2
  · refine ⟨50, by decide, ?_, ?_⟩
    · intro k hk
      by_contra hb
      exact h ⟨k, hk, by simpa using hb⟩
    · intro hlt
      rw [CAPACITY_eq] at hlt
      omega

theorem captures_unique (btn : Nat → Bool) (n m : Nat) (hn : captures btn n)
    (hm : captures btn m) : n = m := by
  obtain ⟨n1, n2, n3⟩ := hn
  obtain ⟨m1, m2, m3⟩ := hm
  rcases Nat.lt_trichotomy n m with h | h | h
  · have := m2 n h
    rw [n3 (by omega)] at this
    exact absurd this (by decide)
  · exact h
  · have := n2 m h
    rw [m3 (by omega)] at this
    exact absurd this (by decide)

/-- C16: in every configuration reachable from `setup` by dispatches of the state
machine, for any button and sensor readings, both `raw_unlock_code` and
`raw_attempted_pattern` have `0 <= size <= N` with `N = MAX_TIME / POLLING_DELAY = 50`;
and in a recording step (state 1 for the reference, state 3 for the attempt) that
captures `n` samples, the buffer handed to the filter has size `n` and holds the `n`
readings, so that the step ends with size `n - 20` when `n >= 20` and `n` otherwise.
Every recording captures some `n`. -/
theorem reachable_sizes (sqrtf : ℚ → ℚ) (dev : Device) (hr : Reachable sqrtf dev) :
    (0 ≤ dev.raw_unlock_code.size ∧ dev.raw_unlock_code.size ≤ CAPACITY) ∧
    (0 ≤ dev.raw_attempted_pattern.size ∧ dev.raw_attempted_pattern.size ≤ CAPACITY) ∧
    CAPACITY = 50 ∧
    (∀ btn : Nat → Bool, ∃ n, captures btn n) ∧
    (∀ (rd : Readings) (n : Nat), dev.next_state = 1 → captures rd.l_btn n →
      ∃ buf : axis_array, buf.size = n ∧
        (∀ k : Nat, k < n → buf.x_arr k = (rd.motion k).x ∧ buf.y_arr k = (rd.motion k).y ∧
          buf.z_arr k = (rd.motion k).z) ∧
        (loop sqrtf rd dev).raw_unlock_code
          = truncate (calculate_moving_average buf 10) 10 ∧
        (loop sqrtf rd dev).raw_unlock_code.size
          = if 20 ≤ (n : Int) then (n : Int) - 20 else n) ∧
    (∀ (rd : Readings) (n : Nat), dev.next_state = 3 → captures rd.r_btn n →
      ∃ buf : axis_array, buf.size = n ∧
        (∀ k : Nat, k < n → buf.x_arr k = (rd.motion k).x ∧ buf.y_arr k = (rd.motion k).y ∧
          buf.z_arr k = (rd.motion k).z) ∧
        (loop sqrtf rd dev).raw_attempted_pattern
          = truncate (calculate_moving_average buf 10) 10 ∧
        (loop sqrtf rd dev).raw_attempted_pattern.size
          = if 20 ≤ (n : Int) then (n : Int) - 20 else n) := by
  obtain ⟨hu, ha⟩ := reachable_size_bounds sqrtf dev hr
  refine ⟨hu, ha, CAPACITY_eq, captures_exists, ?_, ?_⟩
  · intro rd n h1 hc
    have hs : ({ dev with state := dev.next_state } : Device).state = 1 := h1
    have e := state1_raw_unlock_code sqrtf rd _ hs
    obtain ⟨sz, sx, sy, sz3⟩ := recorded_buffer_spec rd.motion rd.l_btn
      (forLoop 0 CAPACITY clear_all_buffers { dev with state := dev.next_state }).acc_data
      (forLoop 0 CAPACITY clear_all_buffers
        { dev with state := dev.next_state }).raw_unlock_code n hc
    refine ⟨_, sz, fun k hk => ?_, e, ?_⟩
    · have c : (0 : Int) ≤ (k : Int) ∧ (k : Int) < (n : Int) := by omega
      exact ⟨by rw [sx k, if_pos c]; simp, by rw [sy k, if_pos c]; simp,
        by rw [sz3 k, if_pos c]; simp⟩
    · rw [loop, e, processed_size, sz]
  · intro rd n h3 hc
    have hs : ({ dev with state := dev.next_state } : Device).state = 3 := h3
    have e := state3_raw_attempted_pattern sqrtf rd _ hs
    obtain ⟨sz, sx, sy, sz3⟩ := recorded_buffer_spec rd.motion rd.r_btn
      ({ dev with state := dev.next_state } : Device).acc_data
      ({ dev with state := dev.next_state } : Device).raw_attempted_pattern n hc
    refine ⟨_, sz, fun k hk => ?_, e, ?_⟩
    · have c : (0 : Int) ≤ (k : Int) ∧ (k : Int) < (n : Int) := by omega
      exact ⟨by rw [sx k, if_pos c]; simp, by rw [sy k, if_pos c]; simp,
        by rw [sz3 k, if_pos c]; simp⟩
    · rw [loop, e, processed_size, sz]

theorem reachable_sizes_witness :
    Reachable Rat.sqrt recorded_device ∧
    (0 ≤ recorded_device.raw_unlock_code.size ∧
      recorded_device.raw_unlock_code.size ≤ CAPACITY) ∧
    (0 ≤ recorded_device.raw_attempted_pattern.size ∧
      recorded_device.raw_attempted_pattern.size ≤ CAPACITY) :=
  ⟨Reachable.step _ _ (Reachable.step _ _ Reachable.setup),
    (reachable_sizes Rat.sqrt recorded_device
      (Reachable.step _ _ (Reachable.step _ _ Reachable.setup))).1,
    (reachable_sizes Rat.sqrt recorded_device
      (Reachable.step _ _ (Reachable.step _ _ Reachable.setup))).2.1⟩

/-! ## The pipeline only looks at the samples below `size` -/

theorem cma_store_same (a b : axis_array) (k : Int) (s : window_sums) (w : Int)
    (h : same_samples a b) : same_samples (cma_store a k s w) (cma_store b k s w) := by
  refine ⟨h.1, fun j h0 h1 => ?_⟩
  have hj := h.2 j h0 h1
  by_cases e : j = k
  · subst e
    simp [cma_store]
  · simp [cma_store, Function.update_noteq e, hj]

theorem cma_first_sums_same (a b : axis_array) (w : Int) (hw : w ≤ a.size)
    (h : same_samples a b) : cma_first_sums a w = cma_first_sums b w :=
  forLoop_congr (cma_init_body a) (cma_init_body b) 0 w _ (fun j t h0 h1 => by
    have hj := h.2 j h0 (by omega)
    simp only [cma_init_body, hj.1, hj.2.1, hj.2.2])

theorem cma_main_pass_same (a b : axis_array) (w : Int) (hw0 : 0 ≤ w) (hw : w ≤ a.size)
    (h : same_samples a b) :
    (cma_main_pass a w).1 = (cma_main_pass b w).1 ∧
    same_samples (cma_main_pass a w).2 (cma_main_pass b w).2 := by
  have key := forLoop_rel (cma_main_body w) (cma_main_body w)
    (fun (sa sb : window_sums × axis_array) =>
      sa.1 = sb.1 ∧ same_samples sa.2 sb.2 ∧ sa.2.size = a.size)
    w a.size
    (cma_first_sums a w, cma_store a (Int.tdiv w 2) (cma_first_sums a w) w)
    (cma_first_sums b w, cma_store b (Int.tdiv w 2) (cma_first_sums b w) w)
    ⟨cma_first_sums_same a b w hw h, by
      rw [← cma_first_sums_same a b w hw h]
      exact cma_store_same a b _ _ w h, rfl⟩
    (fun j sa sb h0 h1 hR => by
      obtain ⟨e1, e2, e3⟩ := hR
      have hlo := e2.2 (j - w) (by omega) (by omega)
      have hhi := e2.2 j (by omega) (by omega)
      have es : (cma_main_body w j sa).1 = (cma_main_body w j sb).1 := by
        simp only [cma_main_body, e1, hlo.1, hlo.2.1, hlo.2.2, hhi.1, hhi.2.1, hhi.2.2]
      refine ⟨es, ?_, e3⟩
      have e4 : (cma_main_body w j sb).2
          = cma_store sb.2 (j - Int.tdiv w 2) (cma_main_body w j sa).1 w := by
        rw [es]
        rfl
      rw [e4]
      exact cma_store_same sa.2 sb.2 _ _ w e2)
  have hb : cma_main_pass b w = forLoop w a.size (cma_main_body w)
      (cma_first_sums b w, cma_store b (Int.tdiv w 2) (cma_first_sums b w) w) := by
    rw [h.1]
    rfl
  rw [hb]
  exact ⟨key.1, key.2.1⟩

/-- The filter gives the same samples below `size` on buffers that have the same samples
below `size`. -/
theorem calculate_moving_average_same (a b : axis_array) (w : Int) (hw0 : 0 ≤ w)
    (h : same_samples a b) :
    same_samples (calculate_moving_average a w) (calculate_moving_average b w) := by
  by_cases hg : w > a.size
  · have hgb : w > b.size := by rw [← h.1]; exact hg
    simp only [calculate_moving_average, if_pos hg, if_pos hgb]
    exact h
  · have hgb : ¬ w > b.size := by rw [← h.1]; exact hg
    obtain ⟨m1, m2⟩ := cma_main_pass_same a b w hw0 (by omega) h
    rw [calculate_moving_average_unfold a w hg, calculate_moving_average_unfold b w hgb,
      ← m1, ← m2.1]
    exact forLoop_rel _ _ same_samples _ _ _ _ m2
      (fun j da db _ _ hR => cma_store_same da db j _ w hR)

/-- Truncation gives the same samples below `size` on buffers that have the same samples
below `size`. -/
theorem truncate_same (a b : axis_array) (w : Int) (hw0 : 0 ≤ w)
    (h : same_samples a b) : same_samples (truncate a w) (truncate b w) := by
  by_cases hg : w * 2 > a.size
  · have hgb : w * 2 > b.size := by rw [← h.1]; exact hg
    simp only [truncate, if_pos hg, if_pos hgb]
    exact h
  · have hgb : ¬ w * 2 > b.size := by rw [← h.1]; exact hg
    obtain ⟨ax, ay, az⟩ := truncate_loop a w (a.size - w * 2) hw0 (by omega)
    obtain ⟨bx, b_y, bz⟩ := truncate_loop b w (a.size - w * 2) hw0 (by omega)
    simp only [truncate, if_neg hg, if_neg hgb, ← h.1]
    refine ⟨rfl, fun k h0 h1 => ?_⟩
    have c : 0 ≤ k ∧ k < a.size - w * 2 := ⟨h0, h1⟩
    have hk := h.2 (k + w) (by omega) (by omega)
    exact ⟨by rw [ax k, bx k, if_pos c, if_pos c, hk.1],
      by rw [ay k, b_y k, if_pos c, if_pos c, hk.2.1],
      by rw [az k, bz k, if_pos c, if_pos c, hk.2.2]⟩

/-- `compare` only reads the samples below `size`. -/
theorem compare_same (sqrtf : ℚ → ℚ) (a b : axis_array) (t : Flt)
    (h : same_samples a b) : compare sqrtf a b t = compare sqrtf a a t := by
  have e : compare_avg_dist sqrtf a b = compare_avg_dist sqrtf a a := by
    simp only [compare_avg_dist]
    rw [forLoop_congr (compare_body sqrtf a b) (compare_body sqrtf a a) 0 a.size 0
      (fun j s h0 h1 => by
        have hj := h.2 j h0 h1
        simp only [compare_body, hj.1, hj.2.1, hj.2.2])]
  simp only [compare, e, h.1, ne_eq, not_true_eq_false, if_false]

theorem compare_refl_match (sqrtf : ℚ → ℚ) (a : axis_array) (t : Flt)
    (h0 : sqrtf 0 = 0) (ht : Flt.le 0 t = true) : compare sqrtf a a t = true := by
  rcases compare_avg_dist_self_cases sqrtf h0 a with e | e
  · simp [compare, e, Flt.gt_zero_of_le ht]
  · simp [compare, e, Flt.gt_nan_left]

/-! ## Recording a gesture and attempting the same gesture -/

theorem recorded_buffer_same (m1 m3 : Nat → axis_data) (b1 b3 : Nat → Bool)
    (acc1 acc3 : axis_data) (d1 d3 : axis_array) (n : Nat)
    (hc1 : captures b1 n) (hc3 : captures b3 n) (hsame : ∀ k, k < n → m3 k = m1 k) :
    same_samples (recorded_buffer m3 b3 acc3 d3) (recorded_buffer m1 b1 acc1 d1) := by
  obtain ⟨s1, x1, y1, z1⟩ := recorded_buffer_spec m1 b1 acc1 d1 n hc1
  obtain ⟨s3, x3, y3, z3⟩ := recorded_buffer_spec m3 b3 acc3 d3 n hc3
  refine ⟨by rw [s1, s3], fun k h0 h1 => ?_⟩
  rw [s3] at h1
  have c : 0 ≤ k ∧ k < (n : Int) := ⟨h0, h1⟩
  have hk := hsame k.toNat (by omega)
  exact ⟨by rw [x1 k, x3 k, if_pos c, if_pos c, hk],
    by rw [y1 k, y3 k, if_pos c, if_pos c, hk],
    by rw [z1 k, z3 k, if_pos c, if_pos c, hk]⟩

/-- C12: for every sample sequence of length `n` with `0 <= n <= 50`, if the state-1
recording captures exactly that sequence as the reference and a state-3 attempt made
with that reference captures exactly the same sequence, then (window 10, THRESHOLD 2)
the state-3 step selects next state 5 (`sqrtf 0 = 0` is the value of `sqrt` at 0). -/
theorem same_gesture_matches (sqrtf : ℚ → ℚ) (h0 : sqrtf 0 = 0) (rd1 rd3 : Readings)
    (dev1 dev3 : Device) (n : Nat) (hs1 : dev1.state = 1) (hs3 : dev3.state = 3)
    (href : dev3.raw_unlock_code = (state_control sqrtf rd1 dev1).raw_unlock_code)
    (hc1 : captures rd1.l_btn n) (hc3 : captures rd3.r_btn n)
    (hsame : ∀ k, k < n → rd3.motion k = rd1.motion k) :
    (state_control sqrtf rd3 dev3).next_state = 5 := by
  have hss := truncate_same _ _ 10 (by decide)
    (calculate_moving_average_same _ _ 10 (by decide)
      (recorded_buffer_same rd1.motion rd3.motion rd1.l_btn rd3.r_btn
        (forLoop 0 CAPACITY clear_all_buffers dev1).acc_data dev3.acc_data
        (forLoop 0 CAPACITY clear_all_buffers dev1).raw_unlock_code
        dev3.raw_attempted_pattern n hc1 hc3 hsame))
  rw [next_state_of_state3_eq sqrtf rd3 dev3 hs3, state3_raw_attempted_pattern sqrtf rd3 dev3 hs3,
    state3_raw_unlock_code sqrtf rd3 dev3 hs3, href, state1_raw_unlock_code sqrtf rd1 dev1 hs1,
    compare_same sqrtf _ _ THRESHOLD hss, compare_refl_match sqrtf _ THRESHOLD h0 le_zero_THRESHOLD]
  rfl

theorem same_gesture_matches_witness :
    (state_control Rat.sqrt unit_x_readings
      { state_control Rat.sqrt unit_x_readings { setup with state := 1 } with
        state := 3 }).next_state = 5 :=
  same_gesture_matches Rat.sqrt rat_sqrt_zero unit_x_readings unit_x_readings
    { setup with state := 1 }
    { state_control Rat.sqrt unit_x_readings { setup with state := 1 } with state := 3 }
    50 rfl rfl rfl
    ⟨by decide, fun _ _ => rfl, fun h => absurd h (by decide)⟩
    ⟨by decide, fun _ _ => rfl, fun h => absurd h (by decide)⟩
    (fun _ _ => rfl)

/-! ## Recordings that leave no sample -/

theorem compare_of_size_zero (sqrtf : ℚ → ℚ) (a b : axis_array) (t : Flt)
    (ha : a.size = 0) (hb : b.size = 0) : compare sqrtf a b t = true := by
  have e : compare_avg_dist sqrtf a b = Flt.nan := by
    simp only [compare_avg_dist, ha]
    rw [forLoop_of_le _ _ (le_refl 0)]
    simp [Flt.divInt, Flt.zero_def, Flt.signedInf]
  simp [compare, ha, hb, e, Flt.gt_nan_left]

theorem processed_size_zero (data : axis_array) (h : data.size = 20 ∨ data.size = 0) :
    (truncate (calculate_moving_average data 10) 10).size = 0 := by
  rw [processed_size]
  rcases h with h | h <;> rw [h] <;> simp

/-- C19: if the reference recording and the attempt recording each capture exactly 20
samples or exactly 0 samples, both processed buffers have size 0 and the state-3 step
selects next state 5, for every choice of the captured sample values; `compare` on two
buffers of size 0 returns true for every threshold (in particular every threshold
`>= 0`). -/
theorem empty_recordings_match (sqrtf : ℚ → ℚ) (rd1 rd3 : Readings) (dev1 dev3 : Device)
    (n1 n3 : Nat) (hs1 : dev1.state = 1) (hs3 : dev3.state = 3)
    (href : dev3.raw_unlock_code = (state_control sqrtf rd1 dev1).raw_unlock_code)
    (hc1 : captures rd1.l_btn n1) (hc3 : captures rd3.r_btn n3)
    (hn1 : n1 = 20 ∨ n1 = 0) (hn3 : n3 = 20 ∨ n3 = 0) :
    (state_control sqrtf rd1 dev1).raw_unlock_code.size = 0 ∧
    (state_control sqrtf rd3 dev3).raw_attempted_pattern.size = 0 ∧
    (state_control sqrtf rd3 dev3).next_state = 5 ∧
    (∀ (a b : axis_array) (t : Flt), a.size = 0 → b.size = 0 →
      compare sqrtf a b t = true) := by
  have z1 : (state_control sqrtf rd1 dev1).raw_unlock_code.size = 0 := by
    rw [state1_raw_unlock_code sqrtf rd1 dev1 hs1]
    apply processed_size_zero
    rw [(recorded_buffer_spec rd1.motion rd1.l_btn _ _ n1 hc1).1]
    omega
  have z3 : (state_control sqrtf rd3 dev3).raw_attempted_pattern.size = 0 := by
    rw [state3_raw_attempted_pattern sqrtf rd3 dev3 hs3]
    apply processed_size_zero
    rw [(recorded_buffer_spec rd3.motion rd3.r_btn _ _ n3 hc3).1]
    omega
  refine ⟨z1, z3, ?_, fun a b t ha hb => compare_of_size_zero sqrtf a b t ha hb⟩
  have zu : (state_control sqrtf rd3 dev3).raw_unlock_code.size = 0 := by
    rw [state3_raw_unlock_code sqrtf rd3 dev3 hs3, href]
    exact z1
  rw [next_state_of_state3_eq sqrtf rd3 dev3 hs3,
    compare_of_size_zero sqrtf _ _ THRESHOLD z3 zu]
  rfl

theorem captures_twenty : captures (fun k => decide (20 ≤ k)) 20 :=
  ⟨by decide, fun k hk => by simp; omega, fun _ => by decide⟩

theorem empty_recordings_match_witness :
    (state_control Rat.sqrt twenty_flat_readings
      { state_control Rat.sqrt twenty_ramp_readings { setup with state := 1 } with
        state := 3 }).raw_attempted_pattern.size = 0 ∧
    (state_control Rat.sqrt twenty_flat_readings
      { state_control Rat.sqrt twenty_ramp_readings { setup with state := 1 } with
        state := 3 }).next_state = 5 :=
  ⟨(empty_recordings_match Rat.sqrt twenty_ramp_readings twenty_flat_readings
      { setup with state := 1 }
      { state_control Rat.sqrt twenty_ramp_readings { setup with state := 1 } with
        state := 3 }
      20 20 rfl rfl rfl captures_twenty captures_twenty (Or.inl rfl) (Or.inl rfl)).2.1,
    (empty_recordings_match Rat.sqrt twenty_ramp_readings twenty_flat_readings
      { setup with state := 1 }
      { state_control Rat.sqrt twenty_ramp_readings { setup with state := 1 } with
        state := 3 }
      20 20 rfl rfl rfl captures_twenty captures_twenty (Or.inl rfl) (Or.inl rfl)).2.2.1⟩

/-! ## Constant gestures -/

theorem fin_add_fin (a b : ℚ) : Flt.fin a + Flt.fin b = Flt.fin (a + b) := rfl

theorem fin_sub_fin (a b : ℚ) : Flt.fin a - Flt.fin b = Flt.fin (a - b) := by
  simp [Flt.sub_def, Flt.add, Flt.neg, sub_eq_add_neg]

theorem fin_mul_fin (a b : ℚ) : Flt.fin a * Flt.fin b = Flt.fin (a * b) := rfl

theorem divInt_fin_mul (w : Int) (c : ℚ) (hw : w ≠ 0) :
    Flt.divInt (Flt.fin ((w : ℚ) * c)) w = Flt.fin c := by
  have hq : (w : ℚ) ≠ 0 := by exact_mod_cast hw
  simp only [Flt.divInt, if_neg hw]
  congr 1
  field_simp

/-- Truncation leaves a constant gesture constant. -/
theorem truncate_const (cx cy cz : ℚ) (d : axis_array) (w : Int) (hw0 : 0 ≤ w)
    (hc : constant_samples cx cy cz d) : constant_samples cx cy cz (truncate d w) := by
  by_cases hg : w * 2 > d.size
  · simp only [truncate, if_pos hg]
    exact hc
  · obtain ⟨ax, ay, az⟩ := truncate_loop d w (d.size - w * 2) hw0 (by omega)
    simp only [truncate, if_neg hg]
    intro k h0 h1
    have c : 0 ≤ k ∧ k < d.size - w * 2 := ⟨h0, h1⟩
    have hk := hc (k + w) (by omega) (by omega)
    exact ⟨by rw [ax k, if_pos c, hk.1], by rw [ay k, if_pos c, hk.2.1],
      by rw [az k, if_pos c, hk.2.2]⟩

theorem rat_sqrt_twenty_five : Rat.sqrt 25 = 5 := by
  have h := Rat.sqrt_eq 5
  rw [show (5 : ℚ) * 5 = 25 by norm_num, abs_of_nonneg (by norm_num)] at h
  exact h

theorem constant_buffer_const (cx cy cz : ℚ) (n : Int) :
    constant_samples cx cy cz (constant_buffer cx cy cz n) :=
  fun _ _ _ => ⟨rfl, rfl, rfl⟩

/-! ## The edges of the filtered buffer -/

/-- A logged loop computes what the loop computes, and its log keeps a property that
the indices of every iteration have. -/
theorem forLoop_logged {σ : Type} (body : Int → σ → σ) (idx : Int → List Int)
    (Q : Int → Prop) (lo hi : Int) (s : σ) (log : List Int) (hlog : ∀ k ∈ log, Q k)
    (hidx : ∀ j, lo ≤ j → j < hi → ∀ k ∈ idx j, Q k) :
    (forLoop lo hi (logged body idx) (s, log)).1 = forLoop lo hi body s ∧
    ∀ k ∈ (forLoop lo hi (logged body idx) (s, log)).2, Q k :=
  forLoop_rel (logged body idx) body
    (fun (sl : σ × List Int) (t : σ) => sl.1 = t ∧ ∀ k ∈ sl.2, Q k) lo hi (s, log) s
    ⟨rfl, hlog⟩
    (fun j sl t h0 h1 hR => by
      refine ⟨?_, fun k hk => ?_⟩
      · show body j sl.1 = body j t
        rw [hR.1]
      · have hk2 : k ∈ sl.2 ++ idx j := hk
        rcases List.mem_append.mp hk2 with hm | hm
        · exact hR.2 k hm
        · exact hidx j h0 h1 k hm)

theorem calculate_moving_average_logged_spec (data : axis_array) (w : Int) (hw : 1 ≤ w) :
    (calculate_moving_average_logged data w).1 = calculate_moving_average data w ∧
    ∀ k ∈ (calculate_moving_average_logged data w).2, 0 ≤ k ∧ k < data.size := by
  by_cases hg : w > data.size
  · simp [calculate_moving_average_logged, calculate_moving_average, hg]
  · have hh : Int.tdiv w 2 = w / 2 := tdiv_two_eq w (by omega)
    obtain ⟨a1, a2⟩ := forLoop_logged (cma_init_body data) (fun i => [i])
      (fun k => 0 ≤ k ∧ k < data.size) 0 w ⟨0, 0, 0⟩ [] (by simp)
      (fun j hj0 hj1 k hk => by
        rw [List.mem_singleton] at hk
        subst hk
        exact ⟨hj0, by omega⟩)
    have a3 : ∀ k ∈ (forLoop 0 w (logged (cma_init_body data) (fun i => [i]))
        (⟨0, 0, 0⟩, [])).2 ++ [Int.tdiv w 2], 0 ≤ k ∧ k < data.size := by
      intro k hk
      rcases List.mem_append.mp hk with hm | hm
      · exact a2 k hm
      · rw [List.mem_singleton] at hm
        subst hm
        omega
    obtain ⟨b1, b2⟩ := forLoop_logged (cma_main_body w)
      (fun i => [i - w, i, i - Int.tdiv w 2]) (fun k => 0 ≤ k ∧ k < data.size) w data.size
      (cma_first_sums data w, cma_store data (Int.tdiv w 2) (cma_first_sums data w) w)
      _ a3
      (fun j hj0 hj1 k hk => by
        simp only [List.mem_cons, List.mem_singleton, List.not_mem_nil, or_false] at hk
        rcases hk with e | e | e <;> subst e <;> omega)
    have a1b : (forLoop 0 w (logged (cma_init_body data) (fun i => [i]))
        (⟨0, 0, 0⟩, [])).1 = cma_first_sums data w := a1
    have b1b : (forLoop w data.size
        (logged (cma_main_body w) (fun i => [i - w, i, i - Int.tdiv w 2]))
        ((cma_first_sums data w,
            cma_store data (Int.tdiv w 2) (cma_first_sums data w) w),
          (forLoop 0 w (logged (cma_init_body data) (fun i => [i]))
            (⟨0, 0, 0⟩, [])).2 ++ [Int.tdiv w 2])).1 = cma_main_pass data w := b1
    have hsz := cma_main_pass_size data w
    obtain ⟨c1, c2⟩ := forLoop_logged (cma_fill_body w (cma_main_pass data w).1)
      (fun i => [i]) (fun k => 0 ≤ k ∧ k < data.size)
      ((cma_main_pass data w).2.size - Int.tdiv w 2) (cma_main_pass data w).2.size
      (cma_main_pass data w).2 _ b2
      (fun j hj0 hj1 k hk => by
        rw [List.mem_singleton] at hk
        subst hk
        rw [hsz] at hj0 hj1
        omega)
    simp only [calculate_moving_average_logged, if_neg hg, a1b, cma_store_size, b1b]
    rw [calculate_moving_average_unfold data w hg]
    exact ⟨c1, c2⟩

theorem truncate_logged_spec (data : axis_array) (w : Int) (hw : 1 ≤ w) :
    (truncate_logged data w).1 = truncate data w ∧
    ∀ k ∈ (truncate_logged data w).2, 0 ≤ k ∧ k < data.size := by
  by_cases hg : w * 2 > data.size
  · simp [truncate_logged, truncate, hg]
  · obtain ⟨a1, a2⟩ := forLoop_logged (truncate_body w) (fun i => [i + w, i])
      (fun k => 0 ≤ k ∧ k < data.size) 0 (data.size - w * 2) data [] (by simp)
      (fun j hj0 hj1 k hk => by
        simp only [List.mem_cons, List.mem_singleton, List.not_mem_nil, or_false] at hk
        rcases hk with e | e <;> subst e <;> omega)
    simp only [truncate_logged, truncate, if_neg hg, a1]
    exact ⟨trivial, a2⟩

theorem compare_logged_spec (sqrtf : ℚ → ℚ) (a b : axis_array) (t : Flt) :
    (compare_logged sqrtf a b t).1 = compare sqrtf a b t ∧
    ∀ k ∈ (compare_logged sqrtf a b t).2, 0 ≤ k ∧ k < a.size ∧ k < b.size := by
  by_cases hg : a.size = b.size
  · obtain ⟨a1, a2⟩ := forLoop_logged (compare_body sqrtf a b) (fun i => [i])
      (fun k => 0 ≤ k ∧ k < a.size ∧ k < b.size) 0 a.size 0 [] (by simp)
      (fun j hj0 hj1 k hk => by
        rw [List.mem_singleton] at hk
        subst hk
        exact ⟨hj0, hj1, by omega⟩)
    simp only [compare_logged, compare, compare_avg_dist, hg, ne_eq, not_true_eq_false,
      if_false]
    rw [hg] at a1 a2
    rw [a1]
    exact ⟨rfl, a2⟩
  · simp [compare_logged, compare, hg]

/-- C15: under the preconditions `size <= capacity` and `window >= 1`, every array read
and write performed by `calculate_moving_average`, `truncate` and `compare` uses an index
`i` with `0 <= i < size`, the size being that of the buffer on entry to the function
(of both buffers for `compare`), hence an index inside the array. The logged functions
compute what the functions compute. -/
theorem accesses_below_size (sqrtf : ℚ → ℚ) (data other : axis_array) (w : Int) (t : Flt)
    (hcap : data.size ≤ CAPACITY) (hw : 1 ≤ w) :
    ((calculate_moving_average_logged data w).1 = calculate_moving_average data w ∧
      ∀ k ∈ (calculate_moving_average_logged data w).2,
        0 ≤ k ∧ k < data.size ∧ k < CAPACITY) ∧
    ((truncate_logged data w).1 = truncate data w ∧
      ∀ k ∈ (truncate_logged data w).2, 0 ≤ k ∧ k < data.size ∧ k < CAPACITY) ∧
    ((compare_logged sqrtf data other t).1 = compare sqrtf data other t ∧
      ∀ k ∈ (compare_logged sqrtf data other t).2,
        0 ≤ k ∧ k < data.size ∧ k < other.size ∧ k < CAPACITY) := by
  obtain ⟨a1, a2⟩ := calculate_moving_average_logged_spec data w hw
  obtain ⟨b1, b2⟩ := truncate_logged_spec data w hw
  obtain ⟨c1, c2⟩ := compare_logged_spec sqrtf data other t
  refine ⟨⟨a1, fun k hk => ?_⟩, ⟨b1, fun k hk => ?_⟩, ⟨c1, fun k hk => ?_⟩⟩
  · have := a2 k hk
    exact ⟨this.1, this.2, by omega⟩
  · have := b2 k hk
    exact ⟨this.1, this.2, by omega⟩
  · have := c2 k hk
    exact ⟨this.1, this.2.1, this.2.2, by omega⟩

theorem accesses_below_size_witness :
    (ramp_buffer 30).size ≤ CAPACITY ∧
    (∀ k ∈ (calculate_moving_average_logged (ramp_buffer 30) 10).2,
      0 ≤ k ∧ k < (ramp_buffer 30).size ∧ k < CAPACITY) ∧
    (∀ k ∈ (truncate_logged (ramp_buffer 30) 10).2,
      0 ≤ k ∧ k < (ramp_buffer 30).size ∧ k < CAPACITY) ∧
    (truncate_logged (ramp_buffer 4) 1).2 = [1, 0, 2, 1] ∧
    (calculate_moving_average_logged (ramp_buffer 3) 2).2 = [0, 1, 1, 0, 2, 1, 2] ∧
    (compare_logged Rat.sqrt (ramp_buffer 3) (ramp_buffer 3) THRESHOLD).2 = [0, 1, 2] :=
  ⟨by decide,
    (accesses_below_size Rat.sqrt (ramp_buffer 30) (ramp_buffer 30) 10 THRESHOLD
      (by decide) (by decide)).1.2,
    (accesses_below_size Rat.sqrt (ramp_buffer 30) (ramp_buffer 30) 10 THRESHOLD
      (by decide) (by decide)).2.1.2,
    by decide, by decide, by decide⟩

/-! ## Binary32 rounding: the values it keeps and one it rounds -/

theorem round_half_even_intCast (z : Int) : round_half_even (z : ℚ) = z := by
  simp [round_half_even]

theorem round32_zero : round32 0 = Flt.fin 0 := by
  simp [round32]

/-- A value that is an integer multiple of the unit in its last place, and below `2^128`
in magnitude, is kept by `round32`. -/
theorem round32_of_multiple (q : ℚ) (hq : q ≠ 0) (z : Int)
    (hz : q / (2 : ℚ) ^ (max (Int.log 2 |q| - 23) (-149)) = (z : ℚ))
    (hlt : |q| < (2 : ℚ) ^ (128 : Int)) : round32 q = Flt.fin q := by
  have h2 : ((2 : ℚ) ^ (max (Int.log 2 |q| - 23) (-149))) ≠ 0 := zpow_ne_zero _ (by norm_num)
  have hv : (round_half_even (q / (2 : ℚ) ^ (max (Int.log 2 |q| - 23) (-149))) : ℚ)
      * (2 : ℚ) ^ (max (Int.log 2 |q| - 23) (-149)) = q := by
    rw [hz, round_half_even_intCast, ← hz]
    field_simp
  simp only [round32, if_neg hq, hv, if_neg (not_le.mpr hlt)]

/-- Every `n * 2^j` with `|n| < 2^24` and `-149 <= j <= 104` is a binary32 value. -/
theorem round32_dyadic (n j : Int) (hn : |n| < 2 ^ 24) (hj : -149 ≤ j) (hj2 : j ≤ 104) :
    round32 ((n : ℚ) * (2 : ℚ) ^ j) = Flt.fin ((n : ℚ) * (2 : ℚ) ^ j) := by
  by_cases h0 : n = 0
  · subst h0
    simp [round32_zero]
  · have hpow : (0 : ℚ) < (2 : ℚ) ^ j := zpow_pos (by norm_num) j
    have hq : (n : ℚ) * (2 : ℚ) ^ j ≠ 0 :=
      mul_ne_zero (by exact_mod_cast h0) hpow.ne'
    have habs : |(n : ℚ) * (2 : ℚ) ^ j| = |(n : ℚ)| * (2 : ℚ) ^ j := by
      rw [abs_mul, abs_of_pos hpow]
    have hnq : |(n : ℚ)| < (2 : ℚ) ^ (24 : Int) := by
      have : ((|n| : Int) : ℚ) < ((2 ^ 24 : Int) : ℚ) := by exact_mod_cast hn
      rw [Int.cast_abs] at this
      calc |(n : ℚ)| < ((2 ^ 24 : Int) : ℚ) := this
        _ = (2 : ℚ) ^ (24 : Int) := by norm_num
    have hlt24 : |(n : ℚ) * (2 : ℚ) ^ j| < (2 : ℚ) ^ (j + 24) := by
      rw [habs, zpow_add₀ (by norm_num : (2 : ℚ) ≠ 0), mul_comm ((2 : ℚ) ^ j)]
      exact mul_lt_mul_of_pos_right hnq hpow
    have hlog : Int.log 2 |(n : ℚ) * (2 : ℚ) ^ j| < j + 24 := by
      have := (Int.lt_zpow_iff_log_lt (R := ℚ) (b := 2) (by norm_num) (x := j + 24)
        (abs_pos.mpr hq)).mp (by simpa using hlt24)
      exact this
    have hk : max (Int.log 2 |(n : ℚ) * (2 : ℚ) ^ j| - 23) (-149) ≤ j := by
      apply max_le <;> omega
    apply round32_of_multiple _ hq
      (n * 2 ^ (j - max (Int.log 2 |(n : ℚ) * (2 : ℚ) ^ j| - 23) (-149)).toNat)
    · generalize max (Int.log 2 |(n : ℚ) * (2 : ℚ) ^ j| - 23) (-149) = k at hk ⊢
      have e : j = k + ((j - k).toNat : Int) := by omega
      have e2 : (2 : ℚ) ^ j = (2 : ℚ) ^ k * (2 : ℚ) ^ ((j - k).toNat) := by
        conv_lhs => rw [e]
        rw [zpow_add₀ (by norm_num : (2 : ℚ) ≠ 0), zpow_natCast]
      have h2 : ((2 : ℚ) ^ k) ≠ 0 := zpow_ne_zero _ (by norm_num)
      rw [e2]
      push_cast
      field_simp
      ring
    · calc |(n : ℚ) * (2 : ℚ) ^ j| < (2 : ℚ) ^ (j + 24) := hlt24
        _ ≤ (2 : ℚ) ^ (128 : Int) := zpow_le_zpow_right₀ (by norm_num) (by omega)

theorem round32_int (n : Int) (hn : |n| < 2 ^ 24) : round32 (n : ℚ) = Flt.fin (n : ℚ) := by
  have h := round32_dyadic n 0 hn (by decide) (by decide)
  simpa using h

/-- The exact result `2 + 2^-30` is not a binary32 value: it is stored as 2. -/
theorem round32_two_plus : round32 (2 + 1 / 2 ^ 30) = Flt.fin 2 := by
  have hq : (2 + 1 / 2 ^ 30 : ℚ) ≠ 0 := by norm_num
  have habs : |(2 + 1 / 2 ^ 30 : ℚ)| = 2 + 1 / 2 ^ 30 := abs_of_pos (by norm_num)
  have hpos : (0 : ℚ) < 2 + 1 / 2 ^ 30 := by norm_num
  have h1 : (1 : Int) ≤ Int.log 2 (2 + 1 / 2 ^ 30 : ℚ) :=
    (Int.zpow_le_iff_le_log (R := ℚ) (b := 2) (by norm_num) hpos).mp (by norm_num)
  have h2 : Int.log 2 (2 + 1 / 2 ^ 30 : ℚ) < 2 :=
    (Int.lt_zpow_iff_log_lt (R := ℚ) (b := 2) (by norm_num) hpos).mp (by norm_num)
  have hlog : Int.log 2 (2 + 1 / 2 ^ 30 : ℚ) = 1 := by omega
  have hk : max ((1 : Int) - 23) (-149) = -22 := by decide
  have hm : (2 + 1 / 2 ^ 30 : ℚ) / (2 : ℚ) ^ (-22 : Int) = 8388608 + 1 / 256 := by
    norm_num
  have hf : ⌊(8388608 + 1 / 256 : ℚ)⌋ = 8388608 := by
    rw [Int.floor_eq_iff]
    norm_num
  have hr : round_half_even (8388608 + 1 / 256 : ℚ) = 8388608 := by
    simp only [round_half_even, hf]
    norm_num
  have hv : ((8388608 : Int) : ℚ) * (2 : ℚ) ^ (-22 : Int) = 2 := by norm_num
  simp only [round32, if_neg hq, habs, hlog, hk, hm, hr, hv]
  norm_num
/-! ## Constant gestures under rounding -/

theorem round_fin (rnd : ℚ → Flt) (q : ℚ) : Flt.round rnd (Flt.fin q) = rnd q := rfl

theorem round_id (x : Flt) : Flt.round Flt.fin x = x := by
  cases x <;> rfl

theorem sums_exact_one (rnd : ℚ → Flt) (n : Int) (c : ℚ) (hn : 1 ≤ n)
    (h : sums_exact rnd n c) : rnd c = Flt.fin c := by
  have := h 1 (by decide) hn
  simpa [exact_at] using this

theorem divInt_round_fin_mul (rnd : ℚ → Flt) (w : Int) (c : ℚ) (hw : 1 ≤ w)
    (h : sums_exact rnd w c) :
    Flt.round rnd (Flt.divInt (Flt.fin ((w : ℚ) * c)) w) = Flt.fin c := by
  rw [divInt_fin_mul w c (by omega), round_fin]
  exact sums_exact_one rnd w c hw h

theorem cma_first_sums_rounded_const (rnd : ℚ → Flt) (cx cy cz : ℚ) (d : axis_array)
    (w : Int) (hw0 : 0 ≤ w) (hw : w ≤ d.size) (hc : constant_samples cx cy cz d)
    (ex : sums_exact rnd w cx) (ey : sums_exact rnd w cy) (ez : sums_exact rnd w cz) :
    cma_first_sums_rounded rnd d w
      = ⟨Flt.fin ((w : ℚ) * cx), Flt.fin ((w : ℚ) * cy), Flt.fin ((w : ℚ) * cz)⟩ :=
  forLoop_invariant (cma_init_body_rounded rnd d)
    (fun j s => s = ⟨Flt.fin ((j : ℚ) * cx), Flt.fin ((j : ℚ) * cy), Flt.fin ((j : ℚ) * cz)⟩)
    0 w _ hw0 (by simp [Flt.zero_def])
    (fun j s h0 h1 hP => by
      have hs : s = ⟨Flt.fin ((j : ℚ) * cx), Flt.fin ((j : ℚ) * cy),
        Flt.fin ((j : ℚ) * cz)⟩ := hP
      have hj := hc j h0 (by omega)
      have e1 : ∀ c : ℚ, (j : ℚ) * c + c = ((j + 1 : Int) : ℚ) * c := fun c => by
        push_cast
        ring
      have hx := ex (j + 1) (by omega) (by omega)
      have hy := ey (j + 1) (by omega) (by omega)
      have hz := ez (j + 1) (by omega) (by omega)
      show cma_init_body_rounded rnd d j s = _
      rw [hs]
      simp only [cma_init_body_rounded, hj.1, hj.2.1, hj.2.2, fin_add_fin, round_fin, e1]
      rw [hx, hy, hz])

theorem cma_store_rounded_const (rnd : ℚ → Flt) (cx cy cz : ℚ) (d : axis_array) (k w : Int)
    (hw : 1 ≤ w) (hc : constant_samples cx cy cz d)
    (ex : sums_exact rnd w cx) (ey : sums_exact rnd w cy) (ez : sums_exact rnd w cz) :
    constant_samples cx cy cz
      (cma_store_rounded rnd d k
        ⟨Flt.fin ((w : ℚ) * cx), Flt.fin ((w : ℚ) * cy), Flt.fin ((w : ℚ) * cz)⟩ w) := by
  intro j h0 h1
  have hj := hc j h0 h1
  by_cases e : j = k
  · subst e
    simp [cma_store_rounded, divInt_round_fin_mul rnd w _ hw ex,
      divInt_round_fin_mul rnd w _ hw ey, divInt_round_fin_mul rnd w _ hw ez]
  · simp [cma_store_rounded, Function.update_noteq e, hj]

theorem cma_main_pass_rounded_size (rnd : ℚ → Flt) (data : axis_array) (w : Int) :
    (cma_main_pass_rounded rnd data w).2.size = data.size :=
  forLoop_preserves (cma_main_body_rounded rnd w) (fun st => st.2.size = data.size) _ _ _ rfl
    (fun j st h => by simpa [cma_main_body_rounded, cma_store_rounded] using h)

theorem cma_main_pass_rounded_const (rnd : ℚ → Flt) (cx cy cz : ℚ) (d : axis_array)
    (w : Int) (hw0 : 1 ≤ w) (hw : w ≤ d.size) (hc : constant_samples cx cy cz d)
    (ex : sums_exact rnd w cx) (ey : sums_exact rnd w cy) (ez : sums_exact rnd w cz) :
    (cma_main_pass_rounded rnd d w).1
      = ⟨Flt.fin ((w : ℚ) * cx), Flt.fin ((w : ℚ) * cy), Flt.fin ((w : ℚ) * cz)⟩ ∧
    constant_samples cx cy cz (cma_main_pass_rounded rnd d w).2 := by
  have e1 : ∀ c : ℚ, (w : ℚ) * c - c = ((w - 1 : Int) : ℚ) * c := fun c => by
    push_cast
    ring
  have e2 : ∀ c : ℚ, ((w - 1 : Int) : ℚ) * c + c = (w : ℚ) * c := fun c => by
    push_cast
    ring
  have key := forLoop_invariant (cma_main_body_rounded rnd w)
    (fun _ (st : window_sums × axis_array) =>
      st.1 = ⟨Flt.fin ((w : ℚ) * cx), Flt.fin ((w : ℚ) * cy), Flt.fin ((w : ℚ) * cz)⟩ ∧
      constant_samples cx cy cz st.2 ∧ st.2.size = d.size)
    w d.size
    (cma_first_sums_rounded rnd d w,
      cma_store_rounded rnd d (Int.tdiv w 2) (cma_first_sums_rounded rnd d w) w) hw
    ⟨cma_first_sums_rounded_const rnd cx cy cz d w (by omega) hw hc ex ey ez, by
      rw [cma_first_sums_rounded_const rnd cx cy cz d w (by omega) hw hc ex ey ez]
      exact cma_store_rounded_const rnd cx cy cz d _ w hw0 hc ex ey ez, rfl⟩
    (fun j st h0 h1 hP => by
      obtain ⟨s1, s2, s3⟩ := hP
      have hlo := s2 (j - w) (by omega) (by omega)
      have hhi := s2 j (by omega) (by omega)
      have es : (cma_main_body_rounded rnd w j st).1
          = ⟨Flt.fin ((w : ℚ) * cx), Flt.fin ((w : ℚ) * cy), Flt.fin ((w : ℚ) * cz)⟩ := by
        simp only [cma_main_body_rounded, s1, hlo.1, hlo.2.1, hlo.2.2, hhi.1, hhi.2.1,
          hhi.2.2, fin_sub_fin, round_fin, e1]
        rw [ex (w - 1) (by omega) (by omega), ey (w - 1) (by omega) (by omega),
          ez (w - 1) (by omega) (by omega)]
        simp only [fin_add_fin, round_fin, e2]
        rw [ex w (by omega) (le_refl w), ey w (by omega) (le_refl w),
          ez w (by omega) (le_refl w)]
      refine ⟨es, ?_, s3⟩
      have e4 : (cma_main_body_rounded rnd w j st).2
          = cma_store_rounded rnd st.2 (j - Int.tdiv w 2)
              (cma_main_body_rounded rnd w j st).1 w := rfl
      rw [e4, es]
      exact cma_store_rounded_const rnd cx cy cz st.2 _ w hw0 s2 ex ey ez)
  exact ⟨key.1, key.2.1⟩

/-- The rounded filter leaves a constant gesture as it is when its running sums do not
round. -/
theorem calculate_moving_average_rounded_const (rnd : ℚ → Flt) (cx cy cz : ℚ)
    (d : axis_array) (w : Int) (hw0 : 1 ≤ w) (hc : constant_samples cx cy cz d)
    (ex : sums_exact rnd w cx) (ey : sums_exact rnd w cy) (ez : sums_exact rnd w cz) :
    constant_samples cx cy cz (calculate_moving_average_rounded rnd d w) ∧
    (calculate_moving_average_rounded rnd d w).size = d.size := by
  by_cases hg : w > d.size
  · simp only [calculate_moving_average_rounded, if_pos hg]
    exact ⟨hc, trivial⟩
  · obtain ⟨m1, m2⟩ := cma_main_pass_rounded_const rnd cx cy cz d w hw0 (by omega) hc ex ey ez
    have hun : calculate_moving_average_rounded rnd d w
        = forLoop ((cma_main_pass_rounded rnd d w).2.size - Int.tdiv w 2)
            (cma_main_pass_rounded rnd d w).2.size
            (fun i b => cma_store_rounded rnd b i (cma_main_pass_rounded rnd d w).1 w)
            (cma_main_pass_rounded rnd d w).2 := by
      simp only [calculate_moving_average_rounded, if_neg hg, cma_main_pass_rounded,
        cma_first_sums_rounded]
      rfl
    rw [hun, m1]
    exact forLoop_preserves
      (fun i b => cma_store_rounded rnd b i
        ⟨Flt.fin ((w : ℚ) * cx), Flt.fin ((w : ℚ) * cy), Flt.fin ((w : ℚ) * cz)⟩ w)
      (fun (b : axis_array) => constant_samples cx cy cz b ∧ b.size = d.size)
      ((cma_main_pass_rounded rnd d w).2.size - Int.tdiv w 2)
      (cma_main_pass_rounded rnd d w).2.size
      (cma_main_pass_rounded rnd d w).2 ⟨m2, cma_main_pass_rounded_size rnd d w⟩
      (fun j b hb => ⟨cma_store_rounded_const rnd cx cy cz b j w hw0 hb.1 ex ey ez, hb.2⟩)

/-- The rounded mean distance between two constant gestures of the same positive size,
from the stored results `ex, ey, ez` of the three differences, `sx, sy, sz` of their
squares and `s2, s3` of the two additions, when the partial sums of the distance
`sqrtf s3` do not round. -/
theorem compare_avg_dist_rounded_const (rnd : ℚ → Flt) (sqrtf : ℚ → ℚ)
    (ax ay az bx b_y bz ex ey ez sx sy sz s2 s3 : ℚ) (a b : axis_array)
    (hpos : 0 < a.size) (ha : constant_samples ax ay az a)
    (hb : constant_samples bx b_y bz b) (hsize : a.size = b.size)
    (hdx : rnd (ax - bx) = Flt.fin ex) (hdy : rnd (ay - b_y) = Flt.fin ey)
    (hdz : rnd (az - bz) = Flt.fin ez) (hsx : rnd (ex * ex) = Flt.fin sx)
    (hsy : rnd (ey * ey) = Flt.fin sy) (hsz : rnd (ez * ez) = Flt.fin sz)
    (h2 : rnd (sx + sy) = Flt.fin s2) (h3 : rnd (s2 + sz) = Flt.fin s3) (hnn : 0 ≤ s3)
    (hD : sums_exact rnd a.size (sqrtf s3)) :
    compare_avg_dist_rounded rnd sqrtf a b = Flt.fin (sqrtf s3) := by
  have hq : ¬ s3 < 0 := not_lt.mpr hnn
  have hsum := forLoop_invariant (compare_body_rounded rnd sqrtf a b)
    (fun j s => s = Flt.fin ((j : ℚ) * sqrtf s3))
    0 a.size 0 hpos.le (by simp [Flt.zero_def])
    (fun j s h0 h1 hP => by
      have hs : s = Flt.fin ((j : ℚ) * sqrtf s3) := hP
      have hja := ha j h0 h1
      have hjb := hb j h0 (by omega)
      have e1 : (j : ℚ) * sqrtf s3 + sqrtf s3 = ((j + 1 : Int) : ℚ) * sqrtf s3 := by
        push_cast
        ring
      show compare_body_rounded rnd sqrtf a b j s = _
      rw [hs]
      simp only [compare_body_rounded, hja.1, hja.2.1, hja.2.2, hjb.1, hjb.2.1, hjb.2.2,
        fin_sub_fin, round_fin, hdx, hdy, hdz, fin_mul_fin, hsx, hsy, hsz, fin_add_fin, h2,
        h3, Flt.sqrt, if_neg hq, e1]
      exact hD (j + 1) (by omega) (by omega))
  simp only [compare_avg_dist_rounded, hsum]
  exact divInt_round_fin_mul rnd a.size _ (by omega) hD

/-- With no rounding at all (`rnd` the identity) the rounded functions are the functions
of the exact model. -/
theorem rounded_with_identity (sqrtf : ℚ → ℚ) (a b : axis_array) (w : Int) (t : Flt) :
    calculate_moving_average_rounded Flt.fin a w = calculate_moving_average a w ∧
    compare_rounded Flt.fin sqrtf a b t = compare sqrtf a b t := by
  have e1 : cma_init_body_rounded Flt.fin a = cma_init_body a := by
    funext i s
    simp only [cma_init_body_rounded, cma_init_body, round_id]
  have e2 : ∀ (d : axis_array) (k : Int) (s : window_sums),
      cma_store_rounded Flt.fin d k s w = cma_store d k s w := fun d k s => by
    simp only [cma_store_rounded, cma_store, round_id]
  have e3 : cma_main_body_rounded Flt.fin w = cma_main_body w := by
    funext i st
    simp only [cma_main_body_rounded, cma_main_body, round_id, e2]
  have e4 : compare_body_rounded Flt.fin sqrtf a b = compare_body sqrtf a b := by
    funext i s
    simp only [compare_body_rounded, compare_body, round_id]
  constructor
  · simp only [calculate_moving_average_rounded, calculate_moving_average, e1, e2, e3]
    rfl
  · simp only [compare_rounded, compare, compare_avg_dist_rounded, compare_avg_dist, e4,
      round_id]

theorem exact_at_round32_int (q : ℚ) (n : Int) (h : q = (n : ℚ)) (hn : |n| < 2 ^ 24) :
    exact_at round32 q := by
  rw [exact_at, h]
  exact round32_int n hn

theorem sums_exact_round32_int (n c : Int) (h : n * |c| < 2 ^ 24) :
    sums_exact round32 n (c : ℚ) := by
  intro k h0 h1
  apply exact_at_round32_int _ (k * c) (by push_cast; rfl)
  rw [abs_mul, abs_of_nonneg h0]
  exact lt_of_le_of_lt (mul_le_mul_of_nonneg_right h1 (abs_nonneg c)) h

theorem sums_exact_round32_small : sums_exact round32 10 (-(1 / 2 ^ 30)) := by
  intro k h0 h1
  have e : (k : ℚ) * -(1 / 2 ^ 30) = ((-k : Int) : ℚ) * (2 : ℚ) ^ (-30 : Int) := by
    push_cast
    norm_num
  rw [exact_at, e]
  exact round32_dyadic (-k) (-30) (by rw [abs_neg, abs_of_nonneg h0]; omega) (by decide)
    (by decide)

theorem processed_rounded_const (rnd : ℚ → Flt) (cx cy cz : ℚ) (d : axis_array)
    (hsz : d.size = 50) (hc : constant_samples cx cy cz d)
    (ex : sums_exact rnd 10 cx) (ey : sums_exact rnd 10 cy) (ez : sums_exact rnd 10 cz) :
    constant_samples cx cy cz (truncate (calculate_moving_average_rounded rnd d 10) 10) ∧
    (truncate (calculate_moving_average_rounded rnd d 10) 10).size = 30 := by
  obtain ⟨c1, c2⟩ := calculate_moving_average_rounded_const rnd cx cy cz d 10 (by decide) hc
    ex ey ez
  refine ⟨truncate_const cx cy cz _ 10 (by decide) c1, ?_⟩
  rw [truncate_size, c2, hsz]
  simp

/-- C13 (as amended): for a reference of 50 samples all equal to `(cx, cy, cz)` and an
attempt of 50 samples all equal to `(dx, dy, dz)` on which no `float` operation of the
pipeline rounds (the running sums `k * c` for `k <= 10` of each of the six constants, the
three differences, their squares, the two sums of the squares, and the partial sums
`k * d` for `k <= 30` of the distance `d` that `sqrt` returns), running
`calculate_moving_average` and `truncate` with window 10 on both and then `compare` with
threshold 2 gives a mean distance equal to `d = sqrt((cx-dx)^2 + (cy-dy)^2 + (cz-dz)^2)`
and returns match if and only if `d <= 2`; with `sqrt 25 = 5`, reference `(1,0,0)`
against attempt `(6,0,0)` has mean distance 5 and is a non-match. `rnd` is the rounding
of the `float` type, whatever it is. -/
theorem constant_gestures_rounded (rnd : ℚ → Flt) (sqrtf : ℚ → ℚ)
    (cx cy cz dx dy dz : ℚ) (ref att : axis_array)
    (hr : ref.size = 50) (ha : att.size = 50) (hrc : constant_samples cx cy cz ref)
    (hac : constant_samples dx dy dz att)
    (hfr : sums_exact rnd 10 cx ∧ sums_exact rnd 10 cy ∧ sums_exact rnd 10 cz)
    (hfa : sums_exact rnd 10 dx ∧ sums_exact rnd 10 dy ∧ sums_exact rnd 10 dz)
    (hd : exact_at rnd (dx - cx) ∧ exact_at rnd (dy - cy) ∧ exact_at rnd (dz - cz))
    (hs : exact_at rnd ((cx - dx) ^ 2) ∧ exact_at rnd ((cy - dy) ^ 2) ∧
      exact_at rnd ((cz - dz) ^ 2))
    (h2 : exact_at rnd ((cx - dx) ^ 2 + (cy - dy) ^ 2) ∧
      exact_at rnd ((cx - dx) ^ 2 + (cy - dy) ^ 2 + (cz - dz) ^ 2))
    (hD : sums_exact rnd 30 (sqrtf ((cx - dx) ^ 2 + (cy - dy) ^ 2 + (cz - dz) ^ 2))) :
    compare_avg_dist_rounded rnd sqrtf
        (truncate (calculate_moving_average_rounded rnd att 10) 10)
        (truncate (calculate_moving_average_rounded rnd ref 10) 10)
      = Flt.fin (sqrtf ((cx - dx) ^ 2 + (cy - dy) ^ 2 + (cz - dz) ^ 2)) ∧
    (compare_rounded rnd sqrtf
        (truncate (calculate_moving_average_rounded rnd att 10) 10)
        (truncate (calculate_moving_average_rounded rnd ref 10) 10) THRESHOLD = true
      ↔ sqrtf ((cx - dx) ^ 2 + (cy - dy) ^ 2 + (cz - dz) ^ 2) ≤ 2) ∧
    (sqrtf 25 = 5 → cx = 1 → cy = 0 → cz = 0 → dx = 6 → dy = 0 → dz = 0 →
      compare_avg_dist_rounded rnd sqrtf
          (truncate (calculate_moving_average_rounded rnd att 10) 10)
          (truncate (calculate_moving_average_rounded rnd ref 10) 10) = Flt.fin 5 ∧
      compare_rounded rnd sqrtf
          (truncate (calculate_moving_average_rounded rnd att 10) 10)
          (truncate (calculate_moving_average_rounded rnd ref 10) 10) THRESHOLD = false) := by
  obtain ⟨ca, sa⟩ := processed_rounded_const rnd dx dy dz att ha hac hfa.1 hfa.2.1 hfa.2.2
  obtain ⟨cr, sr⟩ := processed_rounded_const rnd cx cy cz ref hr hrc hfr.1 hfr.2.1 hfr.2.2
  have qx : (dx - cx) * (dx - cx) = (cx - dx) ^ 2 := by ring
  have qy : (dy - cy) * (dy - cy) = (cy - dy) ^ 2 := by ring
  have qz : (dz - cz) * (dz - cz) = (cz - dz) ^ 2 := by ring
  have hnn : 0 ≤ (cx - dx) ^ 2 + (cy - dy) ^ 2 + (cz - dz) ^ 2 := by positivity
  have havg := compare_avg_dist_rounded_const rnd sqrtf dx dy dz cx cy cz
    (dx - cx) (dy - cy) (dz - cz) ((cx - dx) ^ 2) ((cy - dy) ^ 2) ((cz - dz) ^ 2)
    ((cx - dx) ^ 2 + (cy - dy) ^ 2) ((cx - dx) ^ 2 + (cy - dy) ^ 2 + (cz - dz) ^ 2)
    _ _ (by rw [sa]; decide) ca cr (by rw [sa, sr]) hd.1 hd.2.1 hd.2.2
    (by rw [qx]; exact hs.1) (by rw [qy]; exact hs.2.1) (by rw [qz]; exact hs.2.2)
    h2.1 h2.2 hnn (by rw [sa]; exact hD)
  have hcmp : compare_rounded rnd sqrtf
      (truncate (calculate_moving_average_rounded rnd att 10) 10)
      (truncate (calculate_moving_average_rounded rnd ref 10) 10) THRESHOLD
      = !decide (2 < sqrtf ((cx - dx) ^ 2 + (cy - dy) ^ 2 + (cz - dz) ^ 2)) := by
    simp only [compare_rounded, sa, sr, ne_eq, not_true_eq_false, if_false, havg, THRESHOLD,
      Flt.gt]
    by_cases h : 2 < sqrtf ((cx - dx) ^ 2 + (cy - dy) ^ 2 + (cz - dz) ^ 2) <;> simp [h]
  refine ⟨havg, ?_, ?_⟩
  · rw [hcmp]
    simp
  · intro h25 e1 e2 e3 e4 e5 e6
    have e : (cx - dx) ^ 2 + (cy - dy) ^ 2 + (cz - dz) ^ 2 = 25 := by
      rw [e1, e2, e3, e4, e5, e6]
      norm_num
    rw [hcmp, havg, e, h25]
    exact ⟨rfl, by norm_num⟩

theorem constant_gestures_rounded_witness :
    compare_avg_dist_rounded round32 Rat.sqrt
        (truncate (calculate_moving_average_rounded round32 (constant_buffer 6 0 0 50) 10) 10)
        (truncate (calculate_moving_average_rounded round32 (constant_buffer 1 0 0 50) 10) 10)
      = Flt.fin 5 ∧
    compare_rounded round32 Rat.sqrt
        (truncate (calculate_moving_average_rounded round32 (constant_buffer 6 0 0 50) 10) 10)
        (truncate (calculate_moving_average_rounded round32 (constant_buffer 1 0 0 50) 10) 10)
        THRESHOLD = false :=
  (constant_gestures_rounded round32 Rat.sqrt 1 0 0 6 0 0 (constant_buffer 1 0 0 50)
    (constant_buffer 6 0 0 50) rfl rfl (constant_buffer_const 1 0 0 50)
    (constant_buffer_const 6 0 0 50)
    ⟨by simpa using sums_exact_round32_int 10 1 (by decide),
      by simpa using sums_exact_round32_int 10 0 (by decide),
      by simpa using sums_exact_round32_int 10 0 (by decide)⟩
    ⟨by simpa using sums_exact_round32_int 10 6 (by decide),
      by simpa using sums_exact_round32_int 10 0 (by decide),
      by simpa using sums_exact_round32_int 10 0 (by decide)⟩
    ⟨exact_at_round32_int _ 5 (by norm_num) (by decide),
      exact_at_round32_int _ 0 (by norm_num) (by decide),
      exact_at_round32_int _ 0 (by norm_num) (by decide)⟩
    ⟨exact_at_round32_int _ 25 (by norm_num) (by decide),
      exact_at_round32_int _ 0 (by norm_num) (by decide),
      exact_at_round32_int _ 0 (by norm_num) (by decide)⟩
    ⟨exact_at_round32_int _ 25 (by norm_num) (by decide),
      exact_at_round32_int _ 25 (by norm_num) (by decide)⟩
    (by
      have e : ((1 : ℚ) - 6) ^ 2 + (0 - 0) ^ 2 + (0 - 0) ^ 2 = 25 := by norm_num
      rw [e, rat_sqrt_twenty_five]
      simpa using sums_exact_round32_int 30 5 (by decide))).2.2
    rat_sqrt_twenty_five rfl rfl rfl rfl rfl rfl

/-- C13 fails as stated, in binary32: for the reference 50 x `(-2^-30, 0, 0)` and the
attempt 50 x `(2, 0, 0)` the difference `2 - (-2^-30)` is stored as 2, the mean distance
comes out as 2 and `compare` returns match, while
`sqrt((cx-dx)^2 + (cy-dy)^2 + (cz-dz)^2) = 2 + 2^-30` is greater than 2. -/
theorem constant_gestures_counterexample :
    compare_avg_dist_rounded round32 Rat.sqrt
        (truncate (calculate_moving_average_rounded round32 (constant_buffer 2 0 0 50) 10) 10)
        (truncate (calculate_moving_average_rounded round32
          (constant_buffer (-(1 / 2 ^ 30)) 0 0 50) 10) 10)
      = Flt.fin 2 ∧
    compare_rounded round32 Rat.sqrt
        (truncate (calculate_moving_average_rounded round32 (constant_buffer 2 0 0 50) 10) 10)
        (truncate (calculate_moving_average_rounded round32
          (constant_buffer (-(1 / 2 ^ 30)) 0 0 50) 10) 10)
        THRESHOLD = true ∧
    Real.sqrt ((-(1 / 2 ^ 30) - 2) ^ 2 + (0 - 0) ^ 2 + (0 - 0) ^ 2) = 2 + 1 / 2 ^ 30 ∧
    ¬ (Real.sqrt ((-(1 / 2 ^ 30) - 2) ^ 2 + (0 - 0) ^ 2 + (0 - 0) ^ 2) ≤ 2) := by
  have z10 : sums_exact round32 10 0 := by
    simpa using sums_exact_round32_int 10 0 (by decide)
  have t10 : sums_exact round32 10 2 := by
    simpa using sums_exact_round32_int 10 2 (by decide)
  obtain ⟨ca, sa⟩ := processed_rounded_const round32 2 0 0 (constant_buffer 2 0 0 50) rfl
    (constant_buffer_const 2 0 0 50) t10 z10 z10
  obtain ⟨cr, sr⟩ := processed_rounded_const round32 (-(1 / 2 ^ 30)) 0 0
    (constant_buffer (-(1 / 2 ^ 30)) 0 0 50) rfl
    (constant_buffer_const (-(1 / 2 ^ 30)) 0 0 50) sums_exact_round32_small z10 z10
  have hdx : round32 (2 - -(1 / 2 ^ 30)) = Flt.fin 2 := by
    have e : (2 : ℚ) - -(1 / 2 ^ 30) = 2 + 1 / 2 ^ 30 := by ring
    rw [e]
    exact round32_two_plus
  have hz : round32 (0 - 0) = Flt.fin 0 := by
    rw [sub_zero]
    exact round32_zero
  have h4 : round32 (2 * 2) = Flt.fin 4 := by
    rw [show (2 : ℚ) * 2 = ((4 : Int) : ℚ) by norm_num, round32_int 4 (by decide)]
    norm_num
  have hz2 : round32 (0 * 0) = Flt.fin 0 := by
    rw [mul_zero]
    exact round32_zero
  have h40 : round32 (4 + 0) = Flt.fin 4 := by
    rw [show (4 : ℚ) + 0 = ((4 : Int) : ℚ) by norm_num, round32_int 4 (by decide)]
    norm_num
  have hD : sums_exact round32
      (truncate (calculate_moving_average_rounded round32 (constant_buffer 2 0 0 50) 10)
        10).size (Rat.sqrt 4) := by
    rw [sa, rat_sqrt_four]
    simpa using sums_exact_round32_int 30 2 (by decide)
  have havg := compare_avg_dist_rounded_const round32 Rat.sqrt 2 0 0 (-(1 / 2 ^ 30)) 0 0
    2 0 0 4 0 0 4 4 _ _ (by rw [sa]; decide) ca cr (by rw [sa, sr]) hdx hz hz h4 hz2 hz2
    h40 h40 (by norm_num) hD
  rw [rat_sqrt_four] at havg
  have hsq : ((-(1 / 2 ^ 30) - 2) ^ 2 + (0 - 0) ^ 2 + (0 - 0) ^ 2 : ℝ)
      = (2 + 1 / 2 ^ 30) ^ 2 := by ring
  have hreal : Real.sqrt ((-(1 / 2 ^ 30) - 2) ^ 2 + (0 - 0) ^ 2 + (0 - 0) ^ 2)
      = 2 + 1 / 2 ^ 30 := by
    rw [hsq]
    exact Real.sqrt_sq (by positivity)
  refine ⟨havg, ?_, hreal, ?_⟩
  · have hg : Flt.gt (Flt.fin 2) THRESHOLD = false := by simp [Flt.gt, THRESHOLD]
    unfold compare_rounded
    rw [if_neg (not_not.mpr (by rw [sa, sr])), havg, hg]
    rfl
  · rw [hreal]
    norm_num

end DoorLock
